import Mathlib

/-!
The identity and alias authorization layer of `short`.

A shallow embedding of `pkg/server/server.go` (package `server`): the helpers
`IsUrl` and `IsValidAlias`, and the request handlers registered by
`StartServer`.  A handler is a function from the incoming request and the
backend state to a `World`: the backend state after the request, the ordered
log of backend calls, the session, the sessions handed to `sessionStore.Save`,
and the actions performed on the response writer.

The record store, the login manager and the standard library are not part of
`server.go`; they enter the handlers as the fields of `Backend` and `Lib`.
-/

set_option linter.dupNamespace false

namespace Short

/-! ## Data model -/

deriving instance DecidableEq for Except

/-- Go `[]byte` values that are never compared with `nil`. -/
abbrev Bytes := List UInt8

/-- Go `error` values, identified by their message. -/
abbrev Error := String

/-- The multi-valued header set `textproto.MIMEHeader`, in iteration order. -/
abbrev Mime := List (String × List String)

/-- The `User` record, with the fields `server.go` reads and writes. -/
structure User where
  Name : String
  Password : Bytes
  Admin : Bool
  Aliases : List String
deriving DecidableEq, Repr

/-- Modelled from the spec: the `SessionUser` type is declared outside
`server.go`; the spec says the session stores the plain user name. -/
structure SessionUser where
  Name : String
deriving DecidableEq, Repr

/-- The `Alias` record.  `Password` is a `[]byte` that the resolver compares
with `nil`, so it is optional here: `none` is the nil slice. -/
structure Alias where
  Owner : String
  Url : String
  Alias : String
  Password : Option Bytes
  File : String
deriving DecidableEq, Repr

/-- The `File` record. -/
structure File where
  Data : Bytes
  Mime : Mime
deriving DecidableEq, Repr

/-- The fields of `net/url.URL` that `IsUrl` reads. -/
structure URL where
  Scheme : String
  Host : String
deriving DecidableEq, Repr

/-! ## Standard library -/

/-- The library functions the server calls.  `letterAbove` and `numberAbove`
are the range tables `unicode.Letter` and `unicode.Number` above U+00FF,
`urlParse` is `net/url.Parse`, `bcryptGenerate` is
`bcrypt.GenerateFromPassword` at the default cost and `bcryptCompare` tells
whether `bcrypt.CompareHashAndPassword` returns a nil error. -/
structure Lib where
  letterAbove : Nat → Bool
  numberAbove : Nat → Bool
  urlParse : String → Except Error URL
  bcryptGenerate : Bytes → Except Error Bytes
  bcryptCompare : Bytes → Bytes → Bool

/-- The letter bits (`pLu`, `pLl`) of Go's `unicode.properties` table, which
covers the code points up to `unicode.MaxLatin1`. -/
def latin1Letter (n : Nat) : Bool :=
  (0x41 ≤ n && n ≤ 0x5A) || (0x61 ≤ n && n ≤ 0x7A) ||
  n == 0xAA || n == 0xB5 || n == 0xBA ||
  (0xC0 ≤ n && n ≤ 0xD6) || (0xD8 ≤ n && n ≤ 0xF6) || (0xF8 ≤ n && n ≤ 0xFF)

/-- The number bit (`pN`) of Go's `unicode.properties` table. -/
def latin1Number (n : Nat) : Bool :=
  (0x30 ≤ n && n ≤ 0x39) ||
  n == 0xB2 || n == 0xB3 || n == 0xB9 || (0xBC ≤ n && n ≤ 0xBE)

/-- Go `unicode.IsLetter`: the Latin-1 table up to U+00FF, the range table
above. -/
def unicodeIsLetter (lib : Lib) (c : Char) : Bool :=
  if c.toNat ≤ 0xFF then latin1Letter c.toNat else lib.letterAbove c.toNat

/-- Go `unicode.IsNumber`: the Latin-1 table up to U+00FF, the range table
above. -/
def unicodeIsNumber (lib : Lib) (c : Char) : Bool :=
  if c.toNat ≤ 0xFF then latin1Number c.toNat else lib.numberAbove c.toNat

/-- Go `[]byte(s)`: the UTF-8 bytes of a string. -/
def bytesOf (s : String) : Bytes :=
  s.data.flatMap String.utf8EncodeChar

/-! ## Helpers of `server.go` -/

/-- `IsUrl`: the string parses, and the parsed URL has a scheme and a host. -/
def IsUrl (lib : Lib) (str : String) : Bool :=
  match lib.urlParse str with
  | .ok u => u.Scheme != "" && u.Host != ""
  | .error _ => false

/-- The body of the `switch` in `IsValidAlias`: `true` for the `continue`
cases, `false` for the `default` case. -/
def aliasRuneOk (lib : Lib) (c : Char) : Bool :=
  if unicodeIsLetter lib c then true
  else if unicodeIsNumber lib c then true
  else if c == '-' then true
  else if c == '_' then true
  else false

/-- The loop of `IsValidAlias` over the runes of the alias: the first rune
that reaches the `default` case returns `false`. -/
def validRunes (lib : Lib) : List Char → Bool
  | [] => true
  | c :: cs => if aliasRuneOk lib c then validRunes lib cs else false

/-- `IsValidAlias`.  A Go string that is not valid UTF-8 is ranged over as
the rune U+FFFD for each offending byte, so the runes of any input form a
Lean string. -/
def IsValidAlias (lib : Lib) (name : String) : Bool :=
  validRunes lib name.data

/-- The character set `[A-Za-z0-9_-]` of the specification. -/
def inAliasCharset (c : Char) : Bool :=
  let n := c.toNat
  (0x41 ≤ n && n ≤ 0x5A) || (0x61 ≤ n && n ≤ 0x7A) || (0x30 ≤ n && n ≤ 0x39) ||
  n == 0x5F || n == 0x2D

/-! ## Sessions, requests and responses -/

/-- The dynamic value stored under `sessionUserValue`: a `SessionUser`, or a
value of another type, for which the type assertion `.(SessionUser)` fails. -/
inductive SessionValue where
  | sessionUser (su : SessionUser)
  | other
deriving DecidableEq, Repr

/-- The part of a `sessions.Session` the handlers use: `Values["user"]`
(`none` is `nil`) and the flashes queued under `sessionMessageValue`. -/
structure Session where
  user : Option SessionValue
  flashes : List String
deriving DecidableEq, Repr

/-- The outcome of `r.FormFile("file")`: `http.ErrMissingFile`, another
error, or an uploaded part with its header and with what `ioutil.ReadAll`
returns for it. -/
inductive FormFile where
  | missing
  | failed (err : Error)
  | present (filename : String) (header : Mime) (data : Bytes) (readErr : Option Error)
deriving DecidableEq, Repr

/-- An incoming `*http.Request` as the handlers observe it: the session that
`sessionStore.Get` decodes from it, and the result of each transport-level
operation a handler performs on it.  `RandSeq n a` is the string the random
generator returns for length `n` and alphabet `a` while the request is served; `writeErr` and
`executeErr` are the errors of `w.Write` and of the template execution. -/
structure Request where
  session : Session
  parseForm : Option Error
  form : List (String × String)
  body : Except Error String
  jsonBody : Except Error (String × Bool)
  formFile : FormFile
  basicAuth : Option (String × String)
  aliasVar : String
  RandSeq : Nat → Option String → String
  writeErr : Option Error
  executeErr : Option Error

/-- `r.FormValue(key)`: the first value of the key, or the empty string. -/
def Request.FormValue (r : Request) (key : String) : String :=
  (r.form.lookup key).getD ""

/-- The data handed to the `index.gohtml` template. -/
structure IndexPage where
  User : Option Short.User
  Messages : List String
  NonExistentRandom : String
  Aliases : List Alias
  BaseUrl : String
  Users : List Short.User
  RandomPassword : String
deriving DecidableEq, Repr

/-- An action on the `http.ResponseWriter`. -/
inductive Resp where
  | redirect (url : String) (code : Nat)
  | writeHeader (code : Nat)
  | setHeader (key value : String)
  | addHeader (key value : String)
  | error (msg : String) (code : Nat)
  | write (data : Bytes)
  | execute (page : IndexPage)
deriving DecidableEq, Repr

/-! ## Record store and login manager -/

/-- The methods of the record store (`store`) and of the login manager (`lm`)
that the handlers call, over a backend state `σ`.  A reading method returns
its result or its error; a writing method returns the next state and its
error.  `GetAlias` and `GetFile` return `none` for a nil pointer; `LoggedIn`
returns a user whenever it returns no error.  `BaseUrl` is the package
variable of that name. -/
structure Backend (σ : Type) where
  LogIn : σ → User → Except Error SessionUser
  LoggedIn : σ → SessionUser → Except Error User
  ChangePassword : σ → User → String → σ × Option Error
  SetAdmin : σ → String → Bool → σ × Option Error
  CreateUser : σ → User → σ × Except Error Bool
  GetAlias : σ → String → Except Error (Option Alias)
  CreateAlias : σ → Alias → σ × Option Error
  RmAlias : σ → Alias → σ × Option Error
  RmUser : σ → String → σ × Option Error
  CreateFile : σ → String → File → σ × Option Error
  GetFile : σ → String → Except Error (Option File)
  GetUserAliases : σ → User → Except Error (List Alias)
  GetUsers : σ → Except Error (List User)
  NonExistentRandom : σ → Except Error String
  BaseUrl : String

/-- A call of a backend method, with its arguments. -/
inductive Call where
  | LogIn (u : User)
  | LoggedIn (su : SessionUser)
  | ChangePassword (u : User) (password : String)
  | SetAdmin (name : String) (value : Bool)
  | CreateUser (u : User)
  | GetAlias (name : String)
  | CreateAlias (a : Alias)
  | RmAlias (a : Alias)
  | RmUser (name : String)
  | CreateFile (id : String) (f : File)
  | GetFile (id : String)
  | GetUserAliases (u : User)
  | GetUsers
  | NonExistentRandom
deriving DecidableEq, Repr

/-- A logged backend call: the call, and whether it returned an error. -/
structure Entry where
  call : Call
  failed : Bool
deriving DecidableEq, Repr

/-- What a handler has done when it returns: the backend state, the session
object, the sessions handed to `sessionStore.Save` (oldest first), the
response-writer actions and the backend calls (in order), and the panic it
stopped with, if any. -/
structure World (σ : Type) where
  store : σ
  session : Session
  saved : List Session
  resp : List Resp
  calls : List Entry
  panic : Option String

/-- The state at the start of a handler, after `sessionStore.Get`. -/
def World.init {σ : Type} (st : σ) (r : Request) : World σ :=
  { store := st, session := r.session, saved := [], resp := [], calls := [], panic := none }

/-- `session.AddFlash(msg, sessionMessageValue)`. -/
def World.flash {σ : Type} (w : World σ) (msg : String) : World σ :=
  { w with session := { w.session with flashes := w.session.flashes ++ [msg] } }

/-- `session.Values[sessionUserValue] = v`. -/
def World.setUser {σ : Type} (w : World σ) (v : Option SessionValue) : World σ :=
  { w with session := { w.session with user := v } }

/-- `sessionStore.Save(r, w, session)`. -/
def World.save {σ : Type} (w : World σ) : World σ :=
  { w with saved := w.saved ++ [w.session] }

/-- One more action on the response writer. -/
def World.respond {σ : Type} (w : World σ) (a : Resp) : World σ :=
  { w with resp := w.resp ++ [a] }

/-- `http.Redirect(w, r, "/", http.StatusSeeOther)`. -/
def World.seeOther {σ : Type} (w : World σ) : World σ :=
  w.respond (.redirect "/" 303)

/-- The failure report the handlers repeat: queue the flash message, save the
session and redirect to the index page. -/
def World.fail {σ : Type} (w : World σ) (msg : String) : World σ :=
  ((w.flash msg).save).seeOther

/-- Record a backend call, its error status, and the backend state after it. -/
def World.log {σ : Type} (w : World σ) (c : Call) (failed : Bool) (st : σ) : World σ :=
  { w with store := st, calls := w.calls ++ [⟨c, failed⟩] }

/-- A panic (a nil-pointer dereference) ends the handler. -/
def World.panicWith {σ : Type} (w : World σ) (msg : String) : World σ :=
  { w with panic := some msg }

/-- Whether the handler called the backend method `c`. -/
def World.called {σ : Type} (w : World σ) (c : Call) : Prop :=
  c ∈ w.calls.map Entry.call

instance {σ : Type} (w : World σ) (c : Call) : Decidable (w.called c) := by
  unfold World.called; infer_instance

/-! ## The handlers of `StartServer` -/

/-- The session check that opens the handlers changepw, setadmin, rmalias,
rmuser, createuser and createalias: the session must hold a value, the value
must be a `SessionUser`, and `lm.LoggedIn` must resolve it to a user.  Each
failure is reported as "unauthorized" and ends the handler (`none`). -/
def resolveUser {σ : Type} (b : Backend σ) (w : World σ) : World σ × Option User :=
  match w.session.user with
  | none => (w.fail "unauthorized", none)
  | some .other => (w.fail "unauthorized", none)
  | some (.sessionUser su) =>
    match b.LoggedIn w.store su with
    | .error _ => ((w.log (.LoggedIn su) true w.store).fail "unauthorized", none)
    | .ok user => (w.log (.LoggedIn su) false w.store, some user)

/-- Handler of `POST /__API__/logout`. -/
def handleLogout {σ : Type} (st : σ) (r : Request) : World σ :=
  (((World.init st r).setUser none).save).seeOther

/-- Handler of `POST /__API__/login`. -/
def handleLogin {σ : Type} (b : Backend σ) (st : σ) (r : Request) : World σ :=
  let w := World.init st r
  match r.parseForm with
  | some _ => w.fail "bad request"
  | none =>
    let username := r.FormValue "username"
    let password := r.FormValue "password"
    let u : User := { Name := username, Password := bytesOf password, Admin := false, Aliases := [] }
    match b.LogIn w.store u with
    | .error _ => (w.log (.LogIn u) true w.store).fail "unauthorized"
    | .ok su => (((w.log (.LogIn u) false w.store).setUser (some (.sessionUser su))).save).seeOther

/-- Handler of `POST /__API__/changepw`. -/
def handleChangepw {σ : Type} (b : Backend σ) (st : σ) (r : Request) : World σ :=
  let w := World.init st r
  match r.parseForm with
  | some _ => w.fail "bad request"
  | none =>
    let password := r.FormValue "password"
    let passwordRepeat := r.FormValue "password-repeat"
    if passwordRepeat != password then w.fail "passwords don't match"
    else
      match resolveUser b w with
      | (w, none) => w
      | (w, some user) =>
        match b.ChangePassword w.store user password with
        | (st1, some _) => (w.log (.ChangePassword user password) true st1).fail "server error"
        | (st1, none) =>
          ((((w.log (.ChangePassword user password) false st1).setUser none).save).seeOther)

/-- Handler of `POST /__API__/setadmin`. -/
def handleSetadmin {σ : Type} (b : Backend σ) (st : σ) (r : Request) : World σ :=
  match resolveUser b (World.init st r) with
  | (w, none) => w
  | (w, some user) =>
    if !user.Admin then w.fail "unauthorized"
    else
      match r.jsonBody with
      | .error _ => w.fail "bad request"
      | .ok (name, value) =>
        if name == user.Name then w.fail "can't change your own admin status"
        else
          match b.SetAdmin w.store name value with
          | (st1, some _) => (w.log (.SetAdmin name value) true st1).fail "server error"
          | (st1, none) => ((w.log (.SetAdmin name value) false st1).save).seeOther

/-- Handler of `POST /__API__/rmalias`.  The result of `store.GetAlias` is
dereferenced (`alias.Owner`) without a nil check. -/
def handleRmalias {σ : Type} (b : Backend σ) (st : σ) (r : Request) : World σ :=
  match resolveUser b (World.init st r) with
  | (w, none) => w
  | (w, some user) =>
    match r.body with
    | .error _ => w.fail "server error"
    | .ok aliasName =>
      match b.GetAlias w.store aliasName with
      | .error _ => (w.log (.GetAlias aliasName) true w.store).fail "server error"
      | .ok none => (w.log (.GetAlias aliasName) false w.store).panicWith "nil pointer dereference"
      | .ok (some a) =>
        let w := w.log (.GetAlias aliasName) false w.store
        if a.Owner != user.Name && !user.Admin then w.fail "unauthorized"
        else
          match b.RmAlias w.store a with
          | (st1, some _) => (w.log (.RmAlias a) true st1).fail "server error"
          | (st1, none) => ((w.log (.RmAlias a) false st1).save).seeOther

/-- Handler of `POST /__API__/rmuser`. -/
def handleRmuser {σ : Type} (b : Backend σ) (st : σ) (r : Request) : World σ :=
  match resolveUser b (World.init st r) with
  | (w, none) => w
  | (w, some user) =>
    match r.body with
    | .error _ => w.fail "server error"
    | .ok deleteUserName =>
      if !user.Admin && user.Name != deleteUserName then w.fail "unauthorized"
      else
        match b.RmUser w.store deleteUserName with
        | (st1, some _) => (w.log (.RmUser deleteUserName) true st1).fail "server error"
        | (st1, none) => ((w.log (.RmUser deleteUserName) false st1).save).seeOther

/-- Handler of `POST /__API__/createuser`. -/
def handleCreateuser {σ : Type} (b : Backend σ) (st : σ) (r : Request) : World σ :=
  match resolveUser b (World.init st r) with
  | (w, none) => w
  | (w, some user) =>
    if !user.Admin then w.fail "unauthorized"
    else
      match r.parseForm with
      | some _ => w.fail "bad request"
      | none =>
        let username := r.FormValue "username"
        let password := r.FormValue "password"
        let admin := r.FormValue "admin"
        let adminBool : Bool := if admin == "on" then true else false
        if username == "" then w.fail "username cannot be empty"
        else
          let u : User :=
            { Name := username, Password := bytesOf password, Admin := adminBool, Aliases := [] }
          match b.CreateUser w.store u with
          | (st1, .error _) => (w.log (.CreateUser u) true st1).fail "server error"
          | (st1, .ok true) => (w.log (.CreateUser u) false st1).fail "user exists"
          | (st1, .ok false) => ((w.log (.CreateUser u) false st1).save).seeOther

/-- The password step of createalias: a non-empty password is hashed with
bcrypt, an empty one leaves `hashedPassword` nil. -/
def hashPassword (lib : Lib) (password : String) : Except Error (Option Bytes) :=
  if password != "" then
    match lib.bcryptGenerate (bytesOf password) with
    | .error e => .error e
    | .ok h => .ok (some h)
  else .ok none

/-- The upload branch of createalias (`err == nil` after `r.FormFile`): build
the file identifier, read the upload and store the file.  Neither failure
report in this branch is followed by a `return`, so the handler goes on with
the file identifier in both cases. -/
def storeUpload {σ : Type} (b : Backend σ) (r : Request) (w : World σ)
    (filename : String) (header : Mime) (data : Bytes) (readErr : Option Error) :
    World σ × String :=
  let fileIdentifier := filename ++ ":" ++ r.RandSeq 20 none
  let w := match readErr with
    | some _ => w.fail "bad request"
    | none => w
  let f : File := { Data := data, Mime := header }
  match b.CreateFile w.store fileIdentifier f with
  | (st1, some _) => ((w.log (.CreateFile fileIdentifier f) true st1).fail "server error", fileIdentifier)
  | (st1, none) => (w.log (.CreateFile fileIdentifier f) false st1, fileIdentifier)

/-- The end of createalias: the target check and the `store.CreateAlias`
call. -/
def createTarget {σ : Type} (lib : Lib) (b : Backend σ) (w : World σ) (user : User)
    (url aliasName : String) (hashedPassword : Option Bytes) (fileIdentifier : String) :
    World σ :=
  if !IsUrl lib url && fileIdentifier == "" then w.fail "not a valid url"
  else
    let a : Alias :=
      { Owner := user.Name, Url := url, Alias := aliasName, Password := hashedPassword,
        File := fileIdentifier }
    match b.CreateAlias w.store a with
    | (st1, some _) => (w.log (.CreateAlias a) true st1).fail "server error"
    | (st1, none) => ((w.log (.CreateAlias a) false st1).save).seeOther

/-- Handler of `POST /__API__/createalias`. -/
def handleCreatealias {σ : Type} (lib : Lib) (b : Backend σ) (st : σ) (r : Request) : World σ :=
  let w := World.init st r
  match r.parseForm with
  | some _ => w.fail "bad request"
  | none =>
    match resolveUser b w with
    | (w, none) => w
    | (w, some user) =>
      let url := r.FormValue "url"
      let aliasName := r.FormValue "alias"
      let password := r.FormValue "password"
      match hashPassword lib password with
      | .error _ => w.fail "unauthorized"
      | .ok hashedPassword =>
        match b.GetAlias w.store aliasName with
        | .error _ => (w.log (.GetAlias aliasName) true w.store).fail "server error"
        | .ok existingAlias =>
          let w := w.log (.GetAlias aliasName) false w.store
          if existingAlias.isSome then w.fail "alias name exists"
          else if aliasName == "__API__" then
            w.fail "can't use __API__ as alias (used internally)"
          else if aliasName == "" then w.fail "alias name can't be empty"
          else if !IsValidAlias lib aliasName then w.fail "not a valid url"
          else
            match r.formFile with
            | .failed _ => w.fail "server error"
            | .missing => createTarget lib b w user url aliasName hashedPassword ""
            | .present filename header data readErr =>
              match storeUpload b r w filename header data readErr with
              | (w, fileIdentifier) =>
                createTarget lib b w user url aliasName hashedPassword fileIdentifier

/-- The session check of the index handler: no session value leaves `user`
nil, a value of another type answers 400, a `LoggedIn` failure clears the
session value, saves the session and answers 500.  The outer `none` means the
handler has returned. -/
def indexUser {σ : Type} (b : Backend σ) (w : World σ) : World σ × Option (Option User) :=
  match w.session.user with
  | none => (w, some none)
  | some .other => (w.respond (.writeHeader 400), none)
  | some (.sessionUser su) =>
    match b.LoggedIn w.store su with
    | .error _ =>
      ((((w.log (.LoggedIn su) true w.store).setUser none).save).respond (.writeHeader 500), none)
    | .ok user => (w.log (.LoggedIn su) false w.store, some (some user))

/-- The end of the index handler: save the session and execute the
template. -/
def renderIndex {σ : Type} (r : Request) (w : World σ) (page : IndexPage) : World σ :=
  let w := w.save.respond (.execute page)
  match r.executeErr with
  | some _ => w.respond (.writeHeader 500)
  | none => w

/-- Handler of `GET /`. -/
def handleIndex {σ : Type} (b : Backend σ) (st : σ) (r : Request) : World σ :=
  match indexUser b (World.init st r) with
  | (w, none) => w
  | (w, some user) =>
    let messages := w.session.flashes
    let w : World σ := { w with session := { w.session with flashes := [] } }
    match b.NonExistentRandom w.store with
    | .error _ => (w.log .NonExistentRandom true w.store).respond (.writeHeader 500)
    | .ok randomAlias =>
      let w := w.log .NonExistentRandom false w.store
      match user with
      | none => renderIndex r w ⟨none, messages, randomAlias, [], b.BaseUrl, [], ""⟩
      | some u =>
        match b.GetUserAliases w.store u with
        | .error _ => (w.log (.GetUserAliases u) true w.store).respond (.writeHeader 500)
        | .ok aliases =>
          let w := w.log (.GetUserAliases u) false w.store
          if u.Admin then
            match b.GetUsers w.store with
            | .error _ => (w.log .GetUsers true w.store).respond (.writeHeader 500)
            | .ok users =>
              renderIndex r (w.log .GetUsers false w.store)
                ⟨some u, messages, randomAlias, aliases, b.BaseUrl, users,
                  r.RandSeq 8 (some "abcdefghijklmnopqrstuvwxyz")⟩
          else renderIndex r w ⟨some u, messages, randomAlias, aliases, b.BaseUrl, [], ""⟩

/-- The Unauthorized challenge of the alias handler. -/
def World.challenge {σ : Type} (w : World σ) : World σ :=
  (w.respond (.setHeader "WWW-Authenticate" "Basic realm=\"restricted\", charset=\"UTF-8\"")).respond
    (.error "Unauthorized" 401)

/-- The password gate of the alias handler: whether the request passes.  An
alias without a password passes; otherwise Basic credentials must be present
and their password must compare equal under bcrypt. -/
def accessGranted (lib : Lib) (a : Alias) (r : Request) : Bool :=
  match a.Password with
  | none => true
  | some hash =>
    match r.basicAuth with
    | none => false
    | some (_, password) => lib.bcryptCompare hash (bytesOf password)

/-- The `h.Add` calls that replay the stored header set. -/
def replayHeaders (m : Mime) : List Resp :=
  m.flatMap fun kv => kv.2.map (Resp.addHeader kv.1)

/-- The file branch of the alias handler.  `w.Write` follows the `io.Writer`
contract (it writes all the bytes or returns an error), so the write loop
runs its body once for a non-empty payload. -/
def serveFile {σ : Type} (b : Backend σ) (r : Request) (w : World σ) (id : String) : World σ :=
  match b.GetFile w.store id with
  | .error _ => (w.log (.GetFile id) true w.store).fail "file not found"
  | .ok none => (w.log (.GetFile id) false w.store).panicWith "nil pointer dereference"
  | .ok (some file) =>
    let w := w.log (.GetFile id) false w.store
    let w : World σ := { w with resp := w.resp ++ replayHeaders file.Mime }
    if file.Data.length = 0 then w.respond (.writeHeader 200)
    else
      match r.writeErr with
      | some _ => w.respond (.writeHeader 500)
      | none => (w.respond (.write file.Data)).respond (.writeHeader 200)

/-- The resolution step of the alias handler: redirect when `File` is empty,
serve the file otherwise. -/
def resolveAlias {σ : Type} (b : Backend σ) (r : Request) (w : World σ) (a : Alias) : World σ :=
  if a.File == "" then w.respond (.redirect a.Url 308)
  else serveFile b r w a.File

/-- Handler of `GET /{alias}`. -/
def handleAlias {σ : Type} (lib : Lib) (b : Backend σ) (st : σ) (r : Request) : World σ :=
  let w := World.init st r
  let aliasName := r.aliasVar
  match b.GetAlias w.store aliasName with
  | .error _ => (w.log (.GetAlias aliasName) true w.store).fail "server error"
  | .ok none =>
    (w.log (.GetAlias aliasName) false w.store).fail "alias could not be found. Did you make a typo?"
  | .ok (some a) =>
    let w := w.log (.GetAlias aliasName) false w.store
    match a.Password with
    | none => resolveAlias b r w a
    | some hash =>
      match r.basicAuth with
      | none => w.challenge
      | some (_, password) =>
        if lib.bcryptCompare hash (bytesOf password) then resolveAlias b r w a
        else w.challenge

/-! ## A concrete backend

The theorems below hold for every `Lib` and every `Backend`.  The definitions
of this section give one concrete instance of each, on which the handlers can
be evaluated. -/

/-- A stand-in for bcrypt without salt: the hash of a password is the
password behind a marker byte. -/
def sampleHash (password : Bytes) : Bytes :=
  0x24 :: password

/-- The results of `net/url.Parse` on the strings used as examples below;
every other string is reported as a parse error. -/
def sampleUrlParse (s : String) : Except Error URL :=
  if s == "https://example.com/a" then .ok ⟨"https", "example.com"⟩
  else if s == "" then .ok ⟨"", ""⟩
  else if s == "not a url" then .ok ⟨"", ""⟩
  else .error "parse error"

/-- A concrete library: no letters or numbers above U+00FF, the sample URL
table and the sample hash. -/
def sampleLib : Lib where
  letterAbove := fun _ => false
  numberAbove := fun _ => false
  urlParse := sampleUrlParse
  bcryptGenerate := fun p => .ok (sampleHash p)
  bcryptCompare := fun h p => h == sampleHash p

/-- Modelled from the spec: the state of the record store, which is declared
outside `server.go`: the User, Alias and File records, keyed by name. -/
structure MemStore where
  users : List User
  aliases : List Alias
  files : List (String × File)
deriving DecidableEq, Repr

/-- Modelled from the spec: the record store and the login manager, which are
declared outside `server.go`.  `GetX` returns the record or an explicit
absent result, creation and deletion act on one record, deleting a user does
not touch that user's aliases, and `LoggedIn` re-resolves the user by name. -/
def memBackend : Backend MemStore where
  LogIn := fun st u =>
    match st.users.find? (fun x => x.Name == u.Name) with
    | some x => if x.Password == sampleHash u.Password then .ok ⟨u.Name⟩ else .error "unauthorized"
    | none => .error "unauthorized"
  LoggedIn := fun st su =>
    match st.users.find? (fun x => x.Name == su.Name) with
    | some x => .ok x
    | none => .error "unauthorized"
  ChangePassword := fun st u password =>
    ({ st with users := st.users.map fun x =>
        if x.Name == u.Name then { x with Password := sampleHash (bytesOf password) } else x },
      none)
  SetAdmin := fun st name value =>
    ({ st with users := st.users.map fun x =>
        if x.Name == name then { x with Admin := value } else x }, none)
  CreateUser := fun st u =>
    if st.users.any (fun x => x.Name == u.Name) then (st, .ok true)
    else ({ st with users := st.users ++ [{ u with Password := sampleHash u.Password }] }, .ok false)
  GetAlias := fun st name => .ok (st.aliases.find? (fun a => a.Alias == name))
  CreateAlias := fun st a =>
    ({ st with aliases := st.aliases.filter (fun x => x.Alias != a.Alias) ++ [a] }, none)
  RmAlias := fun st a =>
    ({ st with aliases := st.aliases.filter (fun x => x.Alias != a.Alias) }, none)
  RmUser := fun st name =>
    ({ st with users := st.users.filter (fun x => x.Name != name) }, none)
  CreateFile := fun st id f =>
    ({ st with files := st.files.filter (fun x => x.1 != id) ++ [(id, f)] }, none)
  GetFile := fun st id => .ok (st.files.lookup id)
  GetUserAliases := fun st u => .ok (st.aliases.filter (fun a => a.Owner == u.Name))
  GetUsers := fun st => .ok st.users
  NonExistentRandom := fun st =>
    if st.aliases.any (fun a => a.Alias == "fresh") then .error "no unused alias" else .ok "fresh"
  BaseUrl := "https://sho.rt/"

/-- The concrete backend with a record store that cannot persist files. -/
def fullDiskBackend : Backend MemStore :=
  { memBackend with CreateFile := fun st _ _ => (st, some "disk full") }

/-- The user "ann", an administrator. -/
def ann : User := { Name := "ann", Password := sampleHash (bytesOf "pw-ann"), Admin := true, Aliases := [] }

/-- The user "bob", without administrator rights. -/
def bob : User := { Name := "bob", Password := sampleHash (bytesOf "pw-bob"), Admin := false, Aliases := [] }

/-- The user "cyd", without administrator rights. -/
def cyd : User := { Name := "cyd", Password := sampleHash (bytesOf "pw-cyd"), Admin := false, Aliases := [] }

/-- Bob's alias "docs", a plain redirect. -/
def docsAlias : Alias :=
  { Owner := "bob", Url := "https://example.com/a", Alias := "docs", Password := none, File := "" }

/-- Bob's alias "vault", protected by the password "open sesame", with both a
file and a URL. -/
def vaultAlias : Alias :=
  { Owner := "bob", Url := "https://example.com/a", Alias := "vault",
    Password := some (sampleHash (bytesOf "open sesame")), File := "plan.txt:r4nd" }

/-- The stored file behind "vault". -/
def planFile : File :=
  { Data := [104, 105], Mime := [("Content-Type", ["text/plain"])] }

/-- A store with three users, two aliases and one file. -/
def sampleStore : MemStore :=
  { users := [ann, bob, cyd], aliases := [docsAlias, vaultAlias],
    files := [("plan.txt:r4nd", planFile)] }

/-- The session of a visitor who is not logged in. -/
def anonymous : Session := { user := none, flashes := [] }

/-- The session issued to the named user at login. -/
def sessionOf (name : String) : Session :=
  { user := some (.sessionUser ⟨name⟩), flashes := [] }

/-- A request with the given session and nothing else: an empty form, an
empty body, no upload and no credentials. -/
def baseRequest (s : Session) : Request where
  session := s
  parseForm := none
  form := []
  body := .ok ""
  jsonBody := .error "EOF"
  formFile := .missing
  basicAuth := none
  aliasVar := ""
  RandSeq := fun _ _ => "r4nd"
  writeErr := none
  executeErr := none

/-- A createalias form with the given session, url, alias name and
password. -/
def createRequest (s : Session) (url name password : String) : Request :=
  { baseRequest s with form := [("url", url), ("alias", name), ("password", password)] }

/-- A createalias form that carries the upload "a.txt". -/
def uploadRequest (s : Session) (url name : String) (readErr : Option Error) : Request :=
  { createRequest s url name "" with
    formFile := .present "a.txt" [("Content-Type", ["text/plain"])] [1, 2, 3] readErr }

/-- A request whose body is the given text (rmalias, rmuser). -/
def bodyRequest (s : Session) (body : String) : Request :=
  { baseRequest s with body := .ok body }

/-- A setadmin request whose JSON body decodes to the given name and value. -/
def setadminRequest (s : Session) (name : String) (value : Bool) : Request :=
  { baseRequest s with jsonBody := .ok (name, value) }

/-- A changepw form with the given password and repetition. -/
def changepwRequest (s : Session) (password passwordRepeat : String) : Request :=
  { baseRequest s with form := [("password", password), ("password-repeat", passwordRepeat)] }

/-! ## The template helper `filename` -/

/-- The byte `':'`. -/
def colon : UInt8 := 0x3A

/-- The loop of the template function `filename`, `for i := len(s)-1; i >= 0;
i--`, with `n = i + 1`: the first index, from the end, that holds `':'`
returns `s[:i]`; when the loop runs out, `s` is returned. -/
def filenameLoop (s : Bytes) : Nat → Bytes
  | 0 => s
  | i + 1 => if s[i]? = some colon then s.take i else filenameLoop s i

/-- The template function `filename` of the `funcMap`.  A Go string is its
sequence of bytes, and the function indexes bytes. -/
def filename (s : Bytes) : Bytes :=
  filenameLoop s s.length

/-- A request of rmalias whose body names an alias the store does not hold. -/
def absentAliasRequest : Request :=
  bodyRequest (sessionOf "bob") "nope"

/-- The sample library with bcrypt's length limit: a password of more than 72
bytes is refused with an error. -/
def strictLib : Lib :=
  { sampleLib with
    bcryptGenerate := fun p =>
      if p.length > 72 then .error "bcrypt: password length exceeds 72 bytes"
      else .ok (sampleHash p) }

/-- A password of 73 bytes. -/
def longPassword : String :=
  String.mk (List.replicate 73 'x')

/-! ## Theorems -/

section
variable {σ : Type}

@[simp] theorem World.init_store (st : σ) (r : Request) : (World.init st r).store = st := rfl
@[simp] theorem World.init_session (st : σ) (r : Request) : (World.init st r).session = r.session := rfl
@[simp] theorem World.init_calls (st : σ) (r : Request) : (World.init st r).calls = [] := rfl
@[simp] theorem World.init_saved (st : σ) (r : Request) : (World.init st r).saved = [] := rfl
@[simp] theorem World.init_resp (st : σ) (r : Request) : (World.init st r).resp = [] := rfl
@[simp] theorem World.init_panic (st : σ) (r : Request) : (World.init st r).panic = none := rfl

@[simp] theorem World.fail_store (w : World σ) (m : String) : (w.fail m).store = w.store := rfl
@[simp] theorem World.fail_calls (w : World σ) (m : String) : (w.fail m).calls = w.calls := rfl
@[simp] theorem World.fail_panic (w : World σ) (m : String) : (w.fail m).panic = w.panic := rfl
@[simp] theorem World.fail_resp (w : World σ) (m : String) :
    (w.fail m).resp = w.resp ++ [Resp.redirect "/" 303] := rfl
@[simp] theorem World.fail_saved (w : World σ) (m : String) :
    (w.fail m).saved = w.saved ++ [{ w.session with flashes := w.session.flashes ++ [m] }] := rfl
@[simp] theorem World.fail_session (w : World σ) (m : String) :
    (w.fail m).session = { w.session with flashes := w.session.flashes ++ [m] } := rfl

@[simp] theorem World.log_store (w : World σ) (c : Call) (f : Bool) (st : σ) : (w.log c f st).store = st := rfl
@[simp] theorem World.log_calls (w : World σ) (c : Call) (f : Bool) (st : σ) :
    (w.log c f st).calls = w.calls ++ [⟨c, f⟩] := rfl
@[simp] theorem World.log_session (w : World σ) (c : Call) (f : Bool) (st : σ) : (w.log c f st).session = w.session := rfl
@[simp] theorem World.log_saved (w : World σ) (c : Call) (f : Bool) (st : σ) : (w.log c f st).saved = w.saved := rfl
@[simp] theorem World.log_resp (w : World σ) (c : Call) (f : Bool) (st : σ) : (w.log c f st).resp = w.resp := rfl
@[simp] theorem World.log_panic (w : World σ) (c : Call) (f : Bool) (st : σ) : (w.log c f st).panic = w.panic := rfl

theorem resolveUser_ok (b : Backend σ) (w : World σ) (su : SessionUser) (u : User)
    (hs : w.session.user = some (.sessionUser su)) (hl : b.LoggedIn w.store su = .ok u) :
    resolveUser b w = (w.log (.LoggedIn su) false w.store, some u) := by
  simp [resolveUser, hs, hl]

end

theorem validRunes_iff (lib : Lib) (cs : List Char) :
    validRunes lib cs = true ↔ ∀ c ∈ cs, aliasRuneOk lib c = true := by
  induction cs with
  | nil => simp [validRunes]
  | cons c cs ih =>
    by_cases h : aliasRuneOk lib c = true
    · simp [validRunes, h, ih]
    · simp [validRunes, h]

theorem ascii_table (n : Nat) (h : n < 128) :
    (latin1Letter n || latin1Number n || n == 0x2D || n == 0x5F) =
      ((0x41 ≤ n && n ≤ 0x5A) || (0x61 ≤ n && n ≤ 0x7A) || (0x30 ≤ n && n ≤ 0x39) ||
        n == 0x5F || n == 0x2D) := by
  revert n
  decide

theorem char_eq_of_toNat (c : Char) (n : Nat) (h : c.toNat = n) : c = Char.ofNat n := by
  rw [← h, Char.ofNat_toNat]

theorem aliasRuneOk_iff (lib : Lib) (c : Char) :
    aliasRuneOk lib c = true ↔
      (inAliasCharset c = true ∨
        (128 ≤ c.toNat ∧ (unicodeIsLetter lib c = true ∨ unicodeIsNumber lib c = true))) := by
  have hd : (c == '-') = (c.toNat == 0x2D) := by
    rw [Bool.eq_iff_iff]
    simp only [beq_iff_eq]
    constructor
    · intro h; subst h; rfl
    · intro h; rw [char_eq_of_toNat c _ h]
  have hu : (c == '_') = (c.toNat == 0x5F) := by
    rw [Bool.eq_iff_iff]
    simp only [beq_iff_eq]
    constructor
    · intro h; subst h; rfl
    · intro h; rw [char_eq_of_toNat c _ h]
  have hok : aliasRuneOk lib c =
      (unicodeIsLetter lib c || unicodeIsNumber lib c || c.toNat == 0x2D || c.toNat == 0x5F) := by
    unfold aliasRuneOk
    rw [hd, hu]
    cases unicodeIsLetter lib c <;> cases unicodeIsNumber lib c <;>
      cases (c.toNat == 0x2D) <;> cases (c.toNat == 0x5F) <;> rfl
  rw [hok]
  by_cases hlt : c.toNat < 128
  · have h255 : c.toNat ≤ 0xFF := by omega
    have hl : unicodeIsLetter lib c = latin1Letter c.toNat := by simp [unicodeIsLetter, h255]
    have hn : unicodeIsNumber lib c = latin1Number c.toNat := by simp [unicodeIsNumber, h255]
    rw [hl, hn, ascii_table _ hlt]
    have : ¬ (128 ≤ c.toNat) := by omega
    simp [inAliasCharset, this]
  · have hge : 128 ≤ c.toNat := by omega
    have h1 : (c.toNat == 0x2D) = false := by simp; omega
    have h2 : (c.toNat == 0x5F) = false := by simp; omega
    have h3 : inAliasCharset c = false := by
      simp only [inAliasCharset, Bool.or_eq_false_iff, Bool.and_eq_false_iff, decide_eq_false_iff_not,
        beq_eq_false_iff_ne]
      omega
    simp [h1, h2, h3, hge]

/-- C1 (counterexample): whatever the Unicode range tables, the one-rune name
"é" (U+00E9, a Latin-1 letter) is accepted by `IsValidAlias` although 'é' is
not in `[A-Za-z0-9_-]`. -/
theorem C1_nonascii_letter_accepted :
    (∀ lib : Lib, IsValidAlias lib "é" = true) ∧ inAliasCharset 'é' = false ∧
      ¬ (∀ c ∈ "é".data, inAliasCharset c = true) := by
  refine ⟨fun lib => ?_, by decide, by decide⟩
  simp [IsValidAlias, validRunes, aliasRuneOk, unicodeIsLetter]
  left
  decide

/-- C1 (amended): `IsValidAlias` accepts a name exactly when each of its runes
is in `[A-Za-z0-9_-]` or is a rune outside ASCII that `unicode.IsLetter` or
`unicode.IsNumber` accepts; "My-Alias_1" is accepted and "my alias" (with a
space) is rejected. -/
theorem C1_IsValidAlias_charset (lib : Lib) (s : String) :
    (IsValidAlias lib s = true ↔
      ∀ c ∈ s.data, inAliasCharset c = true ∨
        (128 ≤ c.toNat ∧ (unicodeIsLetter lib c = true ∨ unicodeIsNumber lib c = true))) ∧
    IsValidAlias lib "My-Alias_1" = true ∧ IsValidAlias lib "my alias" = false := by
  have key : ∀ t : String, IsValidAlias lib t = true ↔
      ∀ c ∈ t.data, inAliasCharset c = true ∨
        (128 ≤ c.toNat ∧ (unicodeIsLetter lib c = true ∨ unicodeIsNumber lib c = true)) := by
    intro t
    unfold IsValidAlias
    rw [validRunes_iff]
    constructor
    · intro h c hc; exact (aliasRuneOk_iff lib c).mp (h c hc)
    · intro h c hc; exact (aliasRuneOk_iff lib c).mpr (h c hc)
  refine ⟨key s, ?_, ?_⟩
  · rw [key]
    intro c hc
    left
    revert c
    decide
  · rw [Bool.eq_false_iff]
    intro h
    rw [key] at h
    rcases h ' ' (by decide) with h1 | ⟨h2, _⟩
    · exact absurd h1 (by decide)
    · exact absurd h2 (by decide)

/-- C2: a createalias request of a logged-in user whose alias name is empty,
is the reserved "__API__", or names an alias the store already holds never
reaches `store.CreateAlias`, whatever the url, the password and the upload;
the backend state is left as it was. -/
theorem C2_rejected_name_creates_nothing {σ : Type} (lib : Lib) (b : Backend σ) (st : σ)
    (r : Request) (su : SessionUser) (u : User)
    (hs : r.session.user = some (.sessionUser su)) (hl : b.LoggedIn st su = .ok u)
    (hname : r.FormValue "alias" = "" ∨ r.FormValue "alias" = "__API__" ∨
      ∃ e, b.GetAlias st (r.FormValue "alias") = .ok (some e)) :
    (∀ a, ¬ (handleCreatealias lib b st r).called (.CreateAlias a)) ∧
      (handleCreatealias lib b st r).store = st := by
  unfold handleCreatealias
  cases hp : r.parseForm with
  | some e => simp [World.called]
  | none =>
    simp only [resolveUser_ok b (World.init st r) su u hs hl]
    cases hh : hashPassword lib (r.FormValue "password") with
    | error e => simp [World.called]
    | ok hashed =>
      simp only [World.log_store, World.init_store]
      cases hg : b.GetAlias st (r.FormValue "alias") with
      | error e => simp [World.called]
      | ok existing =>
        cases existing with
        | some e => simp [World.called]
        | none =>
          rcases hname with h | h | ⟨e, h⟩
          · simp [World.called, h]
          · simp [World.called, h]
          · rw [hg] at h; cases h

/-- C2 (witness): bob, logged in, asks for the alias name "docs", which the
store already holds; no alias is created. -/
theorem C2_rejected_name_witness :
    (sessionOf "bob").user = some (.sessionUser ⟨"bob"⟩) ∧
    memBackend.LoggedIn sampleStore ⟨"bob"⟩ = .ok bob ∧
    memBackend.GetAlias sampleStore "docs" = .ok (some docsAlias) ∧
    (∀ a, ¬ (handleCreatealias sampleLib memBackend sampleStore
        (createRequest (sessionOf "bob") "https://example.com/a" "docs" "pw")).called
          (.CreateAlias a)) ∧
    (handleCreatealias sampleLib memBackend sampleStore
        (createRequest (sessionOf "bob") "https://example.com/a" "docs" "pw")).store =
      sampleStore :=
  ⟨by decide, by decide, by decide,
    C2_rejected_name_creates_nothing sampleLib memBackend sampleStore
      (createRequest (sessionOf "bob") "https://example.com/a" "docs" "pw") ⟨"bob"⟩ bob
      (by decide) (by decide) (Or.inr (Or.inr ⟨docsAlias, by decide⟩))⟩

theorem IsUrl_false_iff (lib : Lib) (s : String) :
    IsUrl lib s = false ↔
      ((∃ e, lib.urlParse s = .error e) ∨
        ∃ p, lib.urlParse s = .ok p ∧ (p.Scheme = "" ∨ p.Host = "")) := by
  unfold IsUrl
  cases h : lib.urlParse s with
  | error e => simp
  | ok p =>
    simp only [bne_iff_ne, ne_eq, Bool.and_eq_false_iff, Bool.not_eq_eq_eq_not, Bool.not_true, bne_eq_false_iff_eq, Except.ok.injEq, exists_eq_left', false_or, reduceCtorEq, exists_false]

/-- C3 (counterexample): bob, logged in, asks for the valid, unused name
"new" without an upload, with a url that `IsUrl` accepts and a password of 73
bytes, which bcrypt refuses.  The handler reports the failure after the
password step: `store.CreateAlias` is not called and the store is as it
was. -/
theorem C3_valid_url_password_refused :
    (createRequest (sessionOf "bob") "https://example.com/a" "new" longPassword).parseForm =
      none ∧
    memBackend.LoggedIn sampleStore ⟨"bob"⟩ = .ok bob ∧
    memBackend.GetAlias sampleStore "new" = .ok none ∧
    IsValidAlias strictLib "new" = true ∧
    (createRequest (sessionOf "bob") "https://example.com/a" "new" longPassword).formFile =
      .missing ∧
    IsUrl strictLib "https://example.com/a" = true ∧
    (handleCreatealias strictLib memBackend sampleStore
        (createRequest (sessionOf "bob") "https://example.com/a" "new" longPassword)).calls =
      [⟨.LoggedIn ⟨"bob"⟩, false⟩] ∧
    (handleCreatealias strictLib memBackend sampleStore
        (createRequest (sessionOf "bob") "https://example.com/a" "new" longPassword)).store =
      sampleStore ∧
    (handleCreatealias strictLib memBackend sampleStore
        (createRequest (sessionOf "bob") "https://example.com/a" "new"
          longPassword)).session.flashes = ["unauthorized"] := by
  refine ⟨by decide, by decide, by decide, by decide, by decide, by decide, by decide,
    by decide, by decide⟩

/-- C3 (amended): for a createalias request of a logged-in user with a valid,
unused alias name and no upload: `IsUrl` rejects the url exactly when it does
not parse or parses without a scheme or a host; a rejected url creates no
alias and leaves the backend state as it was.  With an accepted url the
handler makes the one call `store.CreateAlias` with that Url, an empty File
and the logged-in user's name as Owner when the password is empty (the alias
gets no password) or when bcrypt hashes it (the alias gets the hash); when
bcrypt returns an error for a non-empty password, the failure is reported and
no alias is created. -/
theorem C3_url_decides_creation {σ : Type} (lib : Lib) (b : Backend σ) (st : σ)
    (r : Request) (su : SessionUser) (u : User)
    (hs : r.session.user = some (.sessionUser su)) (hl : b.LoggedIn st su = .ok u)
    (hform : r.parseForm = none)
    (hfree : b.GetAlias st (r.FormValue "alias") = .ok none)
    (hne : r.FormValue "alias" ≠ "") (hres : r.FormValue "alias" ≠ "__API__")
    (hvalid : IsValidAlias lib (r.FormValue "alias") = true)
    (hfile : r.formFile = .missing) :
    (IsUrl lib (r.FormValue "url") = false ↔
      ((∃ e, lib.urlParse (r.FormValue "url") = .error e) ∨
        ∃ p, lib.urlParse (r.FormValue "url") = .ok p ∧ (p.Scheme = "" ∨ p.Host = ""))) ∧
    (IsUrl lib (r.FormValue "url") = false →
      (∀ a, ¬ (handleCreatealias lib b st r).called (.CreateAlias a)) ∧
        (handleCreatealias lib b st r).store = st) ∧
    (IsUrl lib (r.FormValue "url") = true →
      (r.FormValue "password" = "" →
        (handleCreatealias lib b st r).calls.map Entry.call =
          [.LoggedIn su, .GetAlias (r.FormValue "alias"),
            .CreateAlias ⟨u.Name, r.FormValue "url", r.FormValue "alias", none, ""⟩] ∧
        (handleCreatealias lib b st r).store =
          (b.CreateAlias st ⟨u.Name, r.FormValue "url", r.FormValue "alias", none, ""⟩).1) ∧
      (r.FormValue "password" ≠ "" →
        ∀ hash, lib.bcryptGenerate (bytesOf (r.FormValue "password")) = .ok hash →
          (handleCreatealias lib b st r).calls.map Entry.call =
            [.LoggedIn su, .GetAlias (r.FormValue "alias"),
              .CreateAlias
                ⟨u.Name, r.FormValue "url", r.FormValue "alias", some hash, ""⟩] ∧
          (handleCreatealias lib b st r).store =
            (b.CreateAlias st
              ⟨u.Name, r.FormValue "url", r.FormValue "alias", some hash, ""⟩).1) ∧
      (r.FormValue "password" ≠ "" →
        ∀ e, lib.bcryptGenerate (bytesOf (r.FormValue "password")) = .error e →
          (handleCreatealias lib b st r).calls.map Entry.call = [.LoggedIn su] ∧
          (handleCreatealias lib b st r).store = st ∧
          (handleCreatealias lib b st r).session.flashes =
            r.session.flashes ++ ["unauthorized"])) := by
  have hcreate : ∀ h, hashPassword lib (r.FormValue "password") = .ok h →
      IsUrl lib (r.FormValue "url") = true →
      (handleCreatealias lib b st r).calls.map Entry.call =
          [.LoggedIn su, .GetAlias (r.FormValue "alias"),
            .CreateAlias ⟨u.Name, r.FormValue "url", r.FormValue "alias", h, ""⟩] ∧
        (handleCreatealias lib b st r).store =
          (b.CreateAlias st ⟨u.Name, r.FormValue "url", r.FormValue "alias", h, ""⟩).1 := by
    intro h hh hurl
    unfold handleCreatealias
    simp only [hform, resolveUser_ok b (World.init st r) su u hs hl, hh]
    simp only [World.log_store, World.init_store, hfree]
    simp only [hne, hres, hvalid, hfile, createTarget, hurl]
    cases hc : b.CreateAlias st ⟨u.Name, r.FormValue "url", r.FormValue "alias", h, ""⟩ with
    | mk st1 err =>
      cases err <;> simp [hc, hne, hres, World.save, World.seeOther, World.respond]
  refine ⟨IsUrl_false_iff lib _, ?_, ?_⟩
  · intro hurl
    unfold handleCreatealias
    simp only [hform, resolveUser_ok b (World.init st r) su u hs hl]
    cases hh : hashPassword lib (r.FormValue "password") with
    | error e => simp [World.called]
    | ok hashed =>
      simp [hfree, hne, hres, hvalid, hfile, createTarget, hurl, World.called]
  · intro hurl
    refine ⟨?_, ?_, ?_⟩
    · intro hpw
      exact hcreate none (by simp [hashPassword, hpw]) hurl
    · intro hpw hash hgen
      exact hcreate (some hash) (by simp [hashPassword, hpw, hgen]) hurl
    · intro hpw e hgen
      have hh : hashPassword lib (r.FormValue "password") = .error e := by
        simp [hashPassword, hpw, hgen]
      unfold handleCreatealias
      simp only [hform, resolveUser_ok b (World.init st r) su u hs hl, hh]
      simp

/-- C3 (witness): bob asks for the unused name "new" without an upload.  The
url "not a url" creates nothing; the url "https://example.com/a" creates the
alias owned by bob with an empty File, without a password for the empty
password and with the hash for the password "pw"; with the 73-byte password
that bcrypt refuses nothing is created. -/
theorem C3_url_decides_creation_witness :
    IsUrl sampleLib "" = false ∧ IsUrl sampleLib "not a url" = false ∧
    IsUrl sampleLib "https://example.com/a" = true ∧
    memBackend.GetAlias sampleStore "new" = .ok none ∧
    IsValidAlias sampleLib "new" = true ∧
    (∀ a, ¬ (handleCreatealias sampleLib memBackend sampleStore
        (createRequest (sessionOf "bob") "not a url" "new" "")).called (.CreateAlias a)) ∧
    (handleCreatealias sampleLib memBackend sampleStore
        (createRequest (sessionOf "bob") "https://example.com/a" "new" "")).calls.map Entry.call =
      [.LoggedIn ⟨"bob"⟩, .GetAlias "new",
        .CreateAlias ⟨"bob", "https://example.com/a", "new", none, ""⟩] ∧
    (handleCreatealias sampleLib memBackend sampleStore
        (createRequest (sessionOf "bob") "https://example.com/a" "new" "pw")).calls.map
          Entry.call =
      [.LoggedIn ⟨"bob"⟩, .GetAlias "new",
        .CreateAlias ⟨"bob", "https://example.com/a", "new", some [0x24, 112, 119], ""⟩] ∧
    (handleCreatealias sampleLib memBackend sampleStore
        (createRequest (sessionOf "bob") "https://example.com/a" "new" "pw")).store.aliases =
      [docsAlias, vaultAlias,
        ⟨"bob", "https://example.com/a", "new", some [0x24, 112, 119], ""⟩] ∧
    (handleCreatealias strictLib memBackend sampleStore
        (createRequest (sessionOf "bob") "https://example.com/a" "new" longPassword)).store =
      sampleStore :=
  ⟨by decide, by decide, by decide, by decide, by decide,
    ((C3_url_decides_creation sampleLib memBackend sampleStore
      (createRequest (sessionOf "bob") "not a url" "new" "") ⟨"bob"⟩ bob
      (by decide) (by decide) (by decide) (by decide) (by decide) (by decide) (by decide)
      (by decide)).2.1 (by decide)).1,
    (((C3_url_decides_creation sampleLib memBackend sampleStore
      (createRequest (sessionOf "bob") "https://example.com/a" "new" "") ⟨"bob"⟩ bob
      (by decide) (by decide) (by decide) (by decide) (by decide) (by decide) (by decide)
      (by decide)).2.2 (by decide)).1 (by decide)).1,
    (((C3_url_decides_creation sampleLib memBackend sampleStore
      (createRequest (sessionOf "bob") "https://example.com/a" "new" "pw") ⟨"bob"⟩ bob
      (by decide) (by decide) (by decide) (by decide) (by decide) (by decide) (by decide)
      (by decide)).2.2 (by decide)).2.1 (by decide) [0x24, 112, 119] (by decide)).1,
    by decide,
    (((C3_url_decides_creation strictLib memBackend sampleStore
      (createRequest (sessionOf "bob") "https://example.com/a" "new" longPassword) ⟨"bob"⟩ bob
      (by decide) (by decide) (by decide) (by decide) (by decide) (by decide) (by decide)
      (by decide)).2.2 (by decide)).2.2 (by decide)
      "bcrypt: password length exceeds 72 bytes" (by decide)).2.1⟩

/-- C4 (the code at the failing input): bob uploads "a.txt" under the unused
name "new" to a store that cannot persist files.  `store.CreateFile` fails,
the failure is reported, and the handler still calls `store.CreateAlias` with
the identifier of the file that was not stored; the alias is in the store
afterwards and the file is not.  The same happens when reading the upload
fails: the alias is created all the same. -/
theorem C4_alias_created_after_failed_upload :
    (handleCreatealias sampleLib fullDiskBackend sampleStore
        (uploadRequest (sessionOf "bob") "" "new" none)).calls =
      [⟨.LoggedIn ⟨"bob"⟩, false⟩, ⟨.GetAlias "new", false⟩,
        ⟨.CreateFile "a.txt:r4nd" ⟨[1, 2, 3], [("Content-Type", ["text/plain"])]⟩, true⟩,
        ⟨.CreateAlias ⟨"bob", "", "new", none, "a.txt:r4nd"⟩, false⟩] ∧
    (handleCreatealias sampleLib fullDiskBackend sampleStore
        (uploadRequest (sessionOf "bob") "" "new" none)).store.aliases =
      [docsAlias, vaultAlias, ⟨"bob", "", "new", none, "a.txt:r4nd"⟩] ∧
    (handleCreatealias sampleLib fullDiskBackend sampleStore
        (uploadRequest (sessionOf "bob") "" "new" none)).store.files =
      [("plan.txt:r4nd", planFile)] ∧
    (handleCreatealias sampleLib fullDiskBackend sampleStore
        (uploadRequest (sessionOf "bob") "" "new" none)).resp =
      [.redirect "/" 303, .redirect "/" 303] ∧
    (handleCreatealias sampleLib memBackend sampleStore
        (uploadRequest (sessionOf "bob") "" "new" (some "unexpected EOF"))).calls.map Entry.call =
      [.LoggedIn ⟨"bob"⟩, .GetAlias "new",
        .CreateFile "a.txt:r4nd" ⟨[1, 2, 3], [("Content-Type", ["text/plain"])]⟩,
        .CreateAlias ⟨"bob", "", "new", none, "a.txt:r4nd"⟩] := by
  refine ⟨by decide, by decide, by decide, by decide, by decide⟩

section
variable {σ : Type}

@[simp] theorem World.respond_store (w : World σ) (a : Resp) : (w.respond a).store = w.store := rfl
@[simp] theorem World.respond_calls (w : World σ) (a : Resp) : (w.respond a).calls = w.calls := rfl
@[simp] theorem World.respond_resp (w : World σ) (a : Resp) : (w.respond a).resp = w.resp ++ [a] := rfl
@[simp] theorem World.respond_saved (w : World σ) (a : Resp) : (w.respond a).saved = w.saved := rfl
@[simp] theorem World.respond_session (w : World σ) (a : Resp) : (w.respond a).session = w.session := rfl
@[simp] theorem World.respond_panic (w : World σ) (a : Resp) : (w.respond a).panic = w.panic := rfl

@[simp] theorem World.panicWith_store (w : World σ) (m : String) : (w.panicWith m).store = w.store := rfl
@[simp] theorem World.panicWith_calls (w : World σ) (m : String) : (w.panicWith m).calls = w.calls := rfl
@[simp] theorem World.panicWith_resp (w : World σ) (m : String) : (w.panicWith m).resp = w.resp := rfl
@[simp] theorem World.panicWith_saved (w : World σ) (m : String) : (w.panicWith m).saved = w.saved := rfl
@[simp] theorem World.panicWith_session (w : World σ) (m : String) :
    (w.panicWith m).session = w.session := rfl

theorem replayHeaders_mem (m : Mime) (x : Resp) (hx : x ∈ replayHeaders m) :
    ∃ k v, x = Resp.addHeader k v := by
  simp only [replayHeaders, List.mem_flatMap, List.mem_map] at hx
  obtain ⟨kv, _, v, _, rfl⟩ := hx
  exact ⟨kv.1, v, rfl⟩

/-- The alias handler, once the alias is found, is its password gate followed
by the resolution step. -/
theorem handleAlias_found (lib : Lib) (b : Backend σ) (st : σ) (r : Request) (a : Alias)
    (hget : b.GetAlias st r.aliasVar = .ok (some a)) :
    handleAlias lib b st r =
      if accessGranted lib a r then
        resolveAlias b r ((World.init st r).log (.GetAlias r.aliasVar) false st) a
      else ((World.init st r).log (.GetAlias r.aliasVar) false st).challenge := by
  unfold handleAlias accessGranted
  simp only [World.init_store, hget]
  cases a.Password with
  | none => simp
  | some h =>
    cases r.basicAuth with
    | none => simp
    | some c =>
      obtain ⟨user, pw⟩ := c
      simp

theorem resolveAlias_calls_file (b : Backend σ) (r : Request) (w : World σ) (a : Alias)
    (hf : a.File ≠ "") :
    ∃ f, (resolveAlias b r w a).calls = w.calls ++ [⟨.GetFile a.File, f⟩] := by
  unfold resolveAlias serveFile
  simp only [beq_iff_eq, hf, if_false]
  cases b.GetFile w.store a.File with
  | error e => exact ⟨true, by simp⟩
  | ok o =>
    cases o with
    | none => exact ⟨false, by simp⟩
    | some f =>
      refine ⟨false, ?_⟩
      simp only
      split
      · simp
      · cases r.writeErr <;> simp

end

/-- C5: for an alias that is found and passes the password gate, a non-empty
`File` sends the handler to the file branch, also when `Url` is set: it calls
`store.GetFile` on `alias.File`, never answers with the redirect to
`alias.Url`, and, when the file is found and the write succeeds, replays the
stored headers, writes the stored bytes and answers 200.  With an empty
`File` the answer is the one call `http.Redirect` with `alias.Url` as it is
stored and `http.StatusPermanentRedirect`, and nothing else happens. -/
theorem C5_file_before_redirect {σ : Type} (lib : Lib) (b : Backend σ) (st : σ) (r : Request)
    (a : Alias) (hget : b.GetAlias st r.aliasVar = .ok (some a))
    (hpass : accessGranted lib a r = true) :
    (a.File ≠ "" →
      (handleAlias lib b st r).called (.GetFile a.File) ∧
      (∀ url, Resp.redirect url 308 ∉ (handleAlias lib b st r).resp) ∧
      (∀ f, b.GetFile st a.File = .ok (some f) → r.writeErr = none →
        (handleAlias lib b st r).resp =
          replayHeaders f.Mime ++ (if f.Data.length = 0 then [] else [.write f.Data]) ++
            [.writeHeader 200])) ∧
    (a.File = "" →
      (handleAlias lib b st r).resp = [.redirect a.Url 308] ∧
      (handleAlias lib b st r).calls.map Entry.call = [.GetAlias r.aliasVar] ∧
      (handleAlias lib b st r).saved = [] ∧
      (handleAlias lib b st r).store = st) := by
  rw [handleAlias_found lib b st r a hget, hpass]
  simp only [if_true]
  constructor
  · intro hf
    refine ⟨?_, ?_, ?_⟩
    · obtain ⟨f, hc⟩ := resolveAlias_calls_file b r
        ((World.init st r).log (.GetAlias r.aliasVar) false st) a hf
      simp [World.called, hc]
    · intro url
      unfold resolveAlias serveFile
      simp only [beq_iff_eq, hf, if_false, World.log_store]
      cases b.GetFile st a.File with
      | error e => simp
      | ok o =>
        cases o with
        | none => simp
        | some f =>
          have hh : Resp.redirect url 308 ∉ replayHeaders f.Mime := by
            intro hx
            obtain ⟨k, v, hkv⟩ := replayHeaders_mem _ _ hx
            cases hkv
          simp only
          split
          · simp [hh]
          · cases r.writeErr <;> simp [hh]
    · intro f hgf hw
      unfold resolveAlias serveFile
      simp only [beq_iff_eq, hf, if_false, World.log_store, hgf, hw]
      split <;> simp
  · intro hf
    simp [resolveAlias, hf]

/-- C5 (witness): the alias "vault" has both a File and a Url; with the right
password the handler serves the file.  The alias "docs" has no File; the
handler redirects to its Url. -/
theorem C5_file_before_redirect_witness :
    vaultAlias.File ≠ "" ∧ vaultAlias.Url ≠ "" ∧
    (handleAlias sampleLib memBackend sampleStore
        { baseRequest anonymous with
          aliasVar := "vault", basicAuth := some ("anyone", "open sesame") }).resp =
      [.addHeader "Content-Type" "text/plain", .write [104, 105], .writeHeader 200] ∧
    (handleAlias sampleLib memBackend sampleStore
        { baseRequest anonymous with aliasVar := "docs" }).resp =
      [.redirect "https://example.com/a" 308] :=
  ⟨by decide, by decide,
    ((C5_file_before_redirect sampleLib memBackend sampleStore
      { baseRequest anonymous with
        aliasVar := "vault", basicAuth := some ("anyone", "open sesame") }
      vaultAlias (by decide) (by decide)).1 (by decide)).2.2 planFile (by decide) (by decide),
    ((C5_file_before_redirect sampleLib memBackend sampleStore
      { baseRequest anonymous with aliasVar := "docs" }
      docsAlias (by decide) (by decide)).2 (by decide)).1⟩

theorem resolveAlias_ne_challenge {σ : Type} (b : Backend σ) (r : Request) (w : World σ)
    (a : Alias) : resolveAlias b r w a ≠ w.challenge := by
  intro h
  by_cases hf : a.File = ""
  · have hr := congrArg World.resp h
    simp [resolveAlias, hf, World.challenge] at hr
  · obtain ⟨f, hc⟩ := resolveAlias_calls_file b r w a hf
    have hc2 := congrArg World.calls h
    rw [hc] at hc2
    simp [World.challenge] at hc2

theorem resolveAlias_basicAuth {σ : Type} (b : Backend σ) (r : Request) (w : World σ)
    (a : Alias) (c : Option (String × String)) :
    resolveAlias b { r with basicAuth := c } w a = resolveAlias b r w a := by
  simp [resolveAlias, serveFile]

/-- C6: for an alias that is found, the alias handler goes on to the
resolution step (access is granted) for every request when the alias has no
password, and, when it has one, exactly when the request carries Basic
credentials whose password compares equal to the stored hash.  Otherwise the
answer is the Unauthorized challenge (the WWW-Authenticate header and status
401): no redirect, no file read, no change of state.  The user name of the
credentials does not influence the outcome. -/
theorem C6_password_gate {σ : Type} (lib : Lib) (b : Backend σ) (st : σ) (r : Request)
    (a : Alias) (hget : b.GetAlias st r.aliasVar = .ok (some a)) :
    (a.Password = none →
      handleAlias lib b st r =
        resolveAlias b r ((World.init st r).log (.GetAlias r.aliasVar) false st) a) ∧
    (∀ hash, a.Password = some hash →
      ((handleAlias lib b st r =
          resolveAlias b r ((World.init st r).log (.GetAlias r.aliasVar) false st) a) ↔
        ∃ user pw, r.basicAuth = some (user, pw) ∧
          lib.bcryptCompare hash (bytesOf pw) = true) ∧
      ((¬ ∃ user pw, r.basicAuth = some (user, pw) ∧
          lib.bcryptCompare hash (bytesOf pw) = true) →
        (handleAlias lib b st r).resp =
          [.setHeader "WWW-Authenticate" "Basic realm=\"restricted\", charset=\"UTF-8\"",
            .error "Unauthorized" 401] ∧
        (handleAlias lib b st r).calls.map Entry.call = [.GetAlias r.aliasVar] ∧
        (handleAlias lib b st r).store = st)) ∧
    (∀ user1 user2 pw,
      handleAlias lib b st { r with basicAuth := some (user1, pw) } =
        handleAlias lib b st { r with basicAuth := some (user2, pw) }) := by
  have hgate : ∀ hash, a.Password = some hash →
      (accessGranted lib a r = true ↔
        ∃ user pw, r.basicAuth = some (user, pw) ∧
          lib.bcryptCompare hash (bytesOf pw) = true) := by
    intro hash hp
    unfold accessGranted
    rw [hp]
    cases r.basicAuth with
    | none => simp
    | some c =>
      obtain ⟨user, pw⟩ := c
      simp only [Option.some.injEq, Prod.mk.injEq]
      constructor
      · intro h; exact ⟨user, pw, ⟨rfl, rfl⟩, h⟩
      · rintro ⟨_, _, ⟨rfl, rfl⟩, h⟩; exact h
  refine ⟨?_, ?_, ?_⟩
  · intro hp
    rw [handleAlias_found lib b st r a hget]
    simp [accessGranted, hp]
  · intro hash hp
    rw [handleAlias_found lib b st r a hget]
    constructor
    · rw [← hgate hash hp]
      constructor
      · intro h
        by_contra hg
        simp only [hg] at h
        exact resolveAlias_ne_challenge b r _ a h.symm
      · intro hg
        simp [hg]
    · intro hno
      rw [← hgate hash hp] at hno
      simp [hno, World.challenge]
  · intro user1 user2 pw
    rw [handleAlias_found lib b st { r with basicAuth := some (user1, pw) } a hget,
      handleAlias_found lib b st { r with basicAuth := some (user2, pw) } a hget]
    simp only [resolveAlias_basicAuth]
    have : accessGranted lib a { r with basicAuth := some (user1, pw) } =
        accessGranted lib a { r with basicAuth := some (user2, pw) } := by
      simp [accessGranted]
    rw [this]
    rfl

/-- C6 (witness): the alias "vault" is protected by "open sesame".  Without
credentials and with a wrong password the answer is the challenge; with the
right password the file is served, and the user name makes no difference. -/
theorem C6_password_gate_witness :
    memBackend.GetAlias sampleStore "vault" = .ok (some vaultAlias) ∧
    (handleAlias sampleLib memBackend sampleStore
        { baseRequest anonymous with aliasVar := "vault" }).resp =
      [.setHeader "WWW-Authenticate" "Basic realm=\"restricted\", charset=\"UTF-8\"",
        .error "Unauthorized" 401] ∧
    (handleAlias sampleLib memBackend sampleStore
        { baseRequest anonymous with
          aliasVar := "vault", basicAuth := some ("bob", "open says me") }).resp =
      [.setHeader "WWW-Authenticate" "Basic realm=\"restricted\", charset=\"UTF-8\"",
        .error "Unauthorized" 401] ∧
    (handleAlias sampleLib memBackend sampleStore
        { baseRequest anonymous with
          aliasVar := "vault", basicAuth := some ("bob", "open sesame") }).resp =
      [.addHeader "Content-Type" "text/plain", .write [104, 105], .writeHeader 200] ∧
    handleAlias sampleLib memBackend sampleStore
        { { baseRequest anonymous with aliasVar := "vault" } with
          basicAuth := some ("bob", "open sesame") } =
      handleAlias sampleLib memBackend sampleStore
        { { baseRequest anonymous with aliasVar := "vault" } with
          basicAuth := some ("", "open sesame") } :=
  ⟨by decide,
    (((C6_password_gate sampleLib memBackend sampleStore
      { baseRequest anonymous with aliasVar := "vault" } vaultAlias (by decide)).2.1
        (sampleHash (bytesOf "open sesame")) (by decide)).2
        (by rintro ⟨user, pw, h, _⟩; cases h)).1,
    (((C6_password_gate sampleLib memBackend sampleStore
      { baseRequest anonymous with
        aliasVar := "vault", basicAuth := some ("bob", "open says me") }
      vaultAlias (by decide)).2.1
        (sampleHash (bytesOf "open sesame")) (by decide)).2
        (by rintro ⟨user, pw, h, hc⟩; cases h; revert hc; decide)).1,
    by decide,
    (C6_password_gate sampleLib memBackend sampleStore
      { baseRequest anonymous with aliasVar := "vault" } vaultAlias (by decide)).2.2
        "bob" "" "open sesame"⟩

/-- C7: for an rmalias request whose body names an existing alias `a`,
`store.RmAlias a` is called exactly when the session resolves through
`LoggedIn` to a user who is an administrator or whose name is `a.Owner`;
otherwise (another user, or no valid session) no alias is removed and the
backend state is left as it was.  In the permitted case the handler's backend
calls are `LoggedIn`, `GetAlias` and the one `RmAlias a`, and the backend
state after the request is the one `store.RmAlias a` produces. -/
theorem C7_rmalias_owner_or_admin {σ : Type} (b : Backend σ) (st : σ) (r : Request)
    (name : String) (a : Alias) (hbody : r.body = .ok name)
    (hget : b.GetAlias st name = .ok (some a)) :
    ((handleRmalias b st r).called (.RmAlias a) ↔
      ∃ su u, r.session.user = some (.sessionUser su) ∧ b.LoggedIn st su = .ok u ∧
        (u.Admin = true ∨ u.Name = a.Owner)) ∧
    ((¬ ∃ su u, r.session.user = some (.sessionUser su) ∧ b.LoggedIn st su = .ok u ∧
        (u.Admin = true ∨ u.Name = a.Owner)) →
      (∀ x, ¬ (handleRmalias b st r).called (.RmAlias x)) ∧
        (handleRmalias b st r).store = st) ∧
    (∀ su u, r.session.user = some (.sessionUser su) → b.LoggedIn st su = .ok u →
      (u.Admin = true ∨ u.Name = a.Owner) →
        (handleRmalias b st r).calls.map Entry.call =
          [.LoggedIn su, .GetAlias name, .RmAlias a] ∧
        (handleRmalias b st r).store = (b.RmAlias st a).1) := by
  unfold handleRmalias
  rcases hsu : r.session.user with _ | (su | _)
  · simp [resolveUser, hsu, World.called]
  · cases hl : b.LoggedIn st su with
    | error e =>
      simp [resolveUser, hsu, hl, World.called]
      intro su1 u1 h1 h2
      subst h1
      rw [hl] at h2
      cases h2
    | ok u =>
      simp only [resolveUser_ok b (World.init st r) su u (by simpa using hsu) (by simpa using hl),
        hbody, World.log_store, World.init_store, hget]
      by_cases hok : u.Admin = true ∨ u.Name = a.Owner
      · have hcond : (a.Owner != u.Name && !u.Admin) = false := by
          rcases hok with h | h
          · simp [h]
          · simp [h]
        simp only [hcond]
        cases hrm : b.RmAlias st a with
        | mk st1 err =>
          cases err <;> simp [World.called, World.save, World.seeOther, hl, hok] <;>
            (intro su1 u1 h1 _ _; exact h1)
      · have hcond : (a.Owner != u.Name && !u.Admin) = true := by
          simp only [not_or] at hok
          obtain ⟨h1, h2⟩ := hok
          simp only [Bool.and_eq_true, bne_iff_ne, ne_eq, Bool.not_eq_true', Bool.not_eq_true] at *
          exact ⟨fun h => h2 h.symm, h1⟩
        have hok2 := not_or.mp hok
        simp only [hcond, if_true]
        simp [World.called, hl, hok2.1, hok2.2]
        intro su1 u1 h1 h2
        subst h1
        rw [hl] at h2
        cases h2
        exact ⟨by simpa using hok2.1, hok2.2⟩
  · simp [resolveUser, hsu, World.called]

/-- C7 (witness): the alias "docs" belongs to bob.  Bob (owner) and ann
(administrator) remove it, and the store afterwards holds "vault" only; cyd
(neither) and a visitor without a session do not remove it. -/
theorem C7_rmalias_owner_or_admin_witness :
    memBackend.GetAlias sampleStore "docs" = .ok (some docsAlias) ∧
    (handleRmalias memBackend sampleStore (bodyRequest (sessionOf "bob") "docs")).called
      (.RmAlias docsAlias) ∧
    (handleRmalias memBackend sampleStore (bodyRequest (sessionOf "bob") "docs")).store =
      (memBackend.RmAlias sampleStore docsAlias).1 ∧
    (memBackend.RmAlias sampleStore docsAlias).1 = { sampleStore with aliases := [vaultAlias] } ∧
    (handleRmalias memBackend sampleStore (bodyRequest (sessionOf "ann") "docs")).calls.map
        Entry.call = [.LoggedIn ⟨"ann"⟩, .GetAlias "docs", .RmAlias docsAlias] ∧
    (handleRmalias memBackend sampleStore (bodyRequest (sessionOf "cyd") "docs")).store =
      sampleStore ∧
    (handleRmalias memBackend sampleStore (bodyRequest anonymous "docs")).store = sampleStore :=
  ⟨by decide,
    (C7_rmalias_owner_or_admin memBackend sampleStore (bodyRequest (sessionOf "bob") "docs")
      "docs" docsAlias (by decide) (by decide)).1.mpr
      ⟨⟨"bob"⟩, bob, by decide, by decide, Or.inr (by decide)⟩,
    ((C7_rmalias_owner_or_admin memBackend sampleStore (bodyRequest (sessionOf "bob") "docs")
      "docs" docsAlias (by decide) (by decide)).2.2 ⟨"bob"⟩ bob (by decide) (by decide)
      (Or.inr (by decide))).2,
    by decide,
    ((C7_rmalias_owner_or_admin memBackend sampleStore (bodyRequest (sessionOf "ann") "docs")
      "docs" docsAlias (by decide) (by decide)).2.2 ⟨"ann"⟩ ann (by decide) (by decide)
      (Or.inl (by decide))).1,
    ((C7_rmalias_owner_or_admin memBackend sampleStore (bodyRequest (sessionOf "cyd") "docs")
      "docs" docsAlias (by decide) (by decide)).2.1
      (by
        rintro ⟨su, u, h1, h2, h3⟩
        cases h1
        have hc : memBackend.LoggedIn sampleStore ⟨"cyd"⟩ = .ok cyd := by decide
        rw [hc] at h2
        cases h2
        revert h3
        decide)).2,
    ((C7_rmalias_owner_or_admin memBackend sampleStore (bodyRequest anonymous "docs")
      "docs" docsAlias (by decide) (by decide)).2.1
      (by rintro ⟨su, u, h1, _⟩; cases h1)).2⟩

/-- C8: for an rmuser request whose body names the target `t`,
`store.RmUser t` is called exactly when the session resolves through
`LoggedIn` to a user who is an administrator or whose name is `t`; otherwise
no user is removed and the backend state is left as it was.  In the permitted
case the handler's backend calls are `LoggedIn` and the one `RmUser t`: it
issues no alias deletion. -/
theorem C8_rmuser_self_or_admin {σ : Type} (b : Backend σ) (st : σ) (r : Request)
    (t : String) (hbody : r.body = .ok t) :
    ((handleRmuser b st r).called (.RmUser t) ↔
      ∃ su u, r.session.user = some (.sessionUser su) ∧ b.LoggedIn st su = .ok u ∧
        (u.Admin = true ∨ u.Name = t)) ∧
    ((¬ ∃ su u, r.session.user = some (.sessionUser su) ∧ b.LoggedIn st su = .ok u ∧
        (u.Admin = true ∨ u.Name = t)) →
      (∀ x, ¬ (handleRmuser b st r).called (.RmUser x)) ∧
        (handleRmuser b st r).store = st) ∧
    (∀ su u, r.session.user = some (.sessionUser su) → b.LoggedIn st su = .ok u →
      (u.Admin = true ∨ u.Name = t) →
        (handleRmuser b st r).calls.map Entry.call = [.LoggedIn su, .RmUser t] ∧
        (handleRmuser b st r).store = (b.RmUser st t).1) := by
  unfold handleRmuser
  rcases hsu : r.session.user with _ | (su | _)
  · simp [resolveUser, hsu, World.called]
  · cases hl : b.LoggedIn st su with
    | error e =>
      simp [resolveUser, hsu, hl, World.called]
      intro su1 u1 h1 h2
      subst h1
      rw [hl] at h2
      cases h2
    | ok u =>
      simp only [resolveUser_ok b (World.init st r) su u (by simpa using hsu) (by simpa using hl),
        hbody, World.log_store, World.init_store]
      by_cases hok : u.Admin = true ∨ u.Name = t
      · have hcond : (!u.Admin && u.Name != t) = false := by
          rcases hok with h | h
          · simp [h]
          · simp [h]
        simp only [hcond]
        cases hrm : b.RmUser st t with
        | mk st1 err =>
          cases err <;> simp [World.called, World.save, World.seeOther, hl, hok] <;>
            (intro su1 u1 h1 _ _; exact h1)
      · have hok2 := not_or.mp hok
        have hcond : (!u.Admin && u.Name != t) = true := by
          simp [hok2.1, hok2.2]
        simp only [hcond, if_true]
        simp [World.called, hl, hok2.1, hok2.2]
        intro su1 u1 h1 h2
        subst h1
        rw [hl] at h2
        cases h2
        exact ⟨by simpa using hok2.1, hok2.2⟩
  · simp [resolveUser, hsu, World.called]

/-- C8 (witness): bob removes himself and ann (administrator) removes bob; in
both cases the aliases of the store are untouched.  Cyd cannot remove bob. -/
theorem C8_rmuser_self_or_admin_witness :
    (handleRmuser memBackend sampleStore (bodyRequest (sessionOf "bob") "bob")).calls.map
        Entry.call = [.LoggedIn ⟨"bob"⟩, .RmUser "bob"] ∧
    (handleRmuser memBackend sampleStore (bodyRequest (sessionOf "bob") "bob")).store =
      { sampleStore with users := [ann, cyd] } ∧
    (handleRmuser memBackend sampleStore (bodyRequest (sessionOf "ann") "bob")).called
      (.RmUser "bob") ∧
    (handleRmuser memBackend sampleStore (bodyRequest (sessionOf "cyd") "bob")).store =
      sampleStore :=
  ⟨((C8_rmuser_self_or_admin memBackend sampleStore (bodyRequest (sessionOf "bob") "bob")
      "bob" (by decide)).2.2 ⟨"bob"⟩ bob (by decide) (by decide) (Or.inr (by decide))).1,
    by decide,
    (C8_rmuser_self_or_admin memBackend sampleStore (bodyRequest (sessionOf "ann") "bob")
      "bob" (by decide)).1.mpr ⟨⟨"ann"⟩, ann, by decide, by decide, Or.inl (by decide)⟩,
    ((C8_rmuser_self_or_admin memBackend sampleStore (bodyRequest (sessionOf "cyd") "bob")
      "bob" (by decide)).2.1
      (by
        rintro ⟨su, u, h1, h2, h3⟩
        cases h1
        have hc : memBackend.LoggedIn sampleStore ⟨"cyd"⟩ = .ok cyd := by decide
        rw [hc] at h2
        cases h2
        revert h3
        decide)).2⟩

/-- C9: the setadmin handler calls `lm.SetAdmin name value` only for the
decoded body `(name, value)` of a request whose session resolves through
`LoggedIn` to an administrator whose own name is not `name`.  A request that
targets the acting user's own name is rejected for every value, whether the
user is an administrator or not, and so is every request of a user who is not
an administrator: `lm.SetAdmin` is not called, the backend state is left as
it was, and the failure is reported with a flash message. -/
theorem C9_setadmin_admin_not_self {σ : Type} (b : Backend σ) (st : σ) (r : Request) :
    (∀ name value, (handleSetadmin b st r).called (.SetAdmin name value) →
      r.jsonBody = .ok (name, value) ∧
      ∃ su u, r.session.user = some (.sessionUser su) ∧ b.LoggedIn st su = .ok u ∧
        u.Admin = true ∧ name ≠ u.Name) ∧
    (∀ su u, r.session.user = some (.sessionUser su) → b.LoggedIn st su = .ok u →
      ((∃ value, r.jsonBody = .ok (u.Name, value)) ∨ u.Admin = false) →
        (∀ n v, ¬ (handleSetadmin b st r).called (.SetAdmin n v)) ∧
        (handleSetadmin b st r).store = st ∧
        (handleSetadmin b st r).resp = [.redirect "/" 303] ∧
        (handleSetadmin b st r).session.flashes =
          r.session.flashes ++
            [if u.Admin then "can't change your own admin status" else "unauthorized"]) := by
  unfold handleSetadmin
  rcases hsu : r.session.user with _ | (su | _)
  · simp [resolveUser, hsu, World.called]
  · cases hl : b.LoggedIn st su with
    | error e =>
      simp [resolveUser, hsu, hl, World.called]
      intro su1 u1 h1 h2
      subst h1
      rw [hl] at h2
      cases h2
    | ok u =>
      simp only [resolveUser_ok b (World.init st r) su u (by simpa using hsu) (by simpa using hl),
        World.log_store, World.init_store]
      cases hadm : u.Admin with
      | false =>
        simp only [Bool.not_false, if_true]
        constructor
        · simp [World.called]
        · intro su1 u1 h1 h2 _
          cases h1
          rw [hl] at h2
          cases h2
          simp [World.called, hadm]
      | true =>
        simp only [Bool.not_true, Bool.false_eq_true, if_false]
        cases hj : r.jsonBody with
        | error e =>
          constructor
          · simp [World.called]
          · intro su1 u1 h1 h2 h3
            cases h1
            rw [hl] at h2
            cases h2
            rcases h3 with ⟨v, hv⟩ | h3
            · cases hv
            · rw [hadm] at h3; cases h3
        | ok nv =>
          obtain ⟨name, value⟩ := nv
          by_cases hself : name = u.Name
          · simp only [hself, beq_self_eq_true, if_true]
            constructor
            · simp [World.called]
            · intro su1 u1 h1 h2 _
              cases h1
              rw [hl] at h2
              cases h2
              simp [World.called, hadm]
          · have hne : (name == u.Name) = false := by simpa using hself
            simp only [hne, Bool.false_eq_true, if_false]
            constructor
            · intro n v hcalled
              have : n = name ∧ v = value := by
                cases hsa : b.SetAdmin st name value with
                | mk st1 err =>
                  rw [hsa] at hcalled
                  cases err <;> simpa [World.called, World.save, World.seeOther] using hcalled
              obtain ⟨rfl, rfl⟩ := this
              exact ⟨rfl, su, u, rfl, hl, hadm, hself⟩
            · intro su1 u1 h1 h2 h3
              cases h1
              rw [hl] at h2
              cases h2
              rcases h3 with ⟨v, hv⟩ | h3
              · cases hv; exact absurd rfl hself
              · rw [hadm] at h3; cases h3
  · simp [resolveUser, hsu, World.called]

/-- C9 (witness): ann (administrator) makes bob an administrator; ann's
request on her own name and bob's request (not an administrator) are
rejected. -/
theorem C9_setadmin_admin_not_self_witness :
    (handleSetadmin memBackend sampleStore
        (setadminRequest (sessionOf "ann") "bob" true)).called (.SetAdmin "bob" true) ∧
    ((setadminRequest (sessionOf "ann") "bob" true).jsonBody = .ok ("bob", true) ∧
      ∃ su u, (setadminRequest (sessionOf "ann") "bob" true).session.user =
          some (.sessionUser su) ∧
        memBackend.LoggedIn sampleStore su = .ok u ∧ u.Admin = true ∧ "bob" ≠ u.Name) ∧
    (∀ n v, ¬ (handleSetadmin memBackend sampleStore
        (setadminRequest (sessionOf "ann") "ann" false)).called (.SetAdmin n v)) ∧
    (∀ n v, ¬ (handleSetadmin memBackend sampleStore
        (setadminRequest (sessionOf "bob") "cyd" true)).called (.SetAdmin n v)) :=
  ⟨by decide,
    (C9_setadmin_admin_not_self memBackend sampleStore
      (setadminRequest (sessionOf "ann") "bob" true)).1 "bob" true (by decide),
    ((C9_setadmin_admin_not_self memBackend sampleStore
      (setadminRequest (sessionOf "ann") "ann" false)).2 ⟨"ann"⟩ ann (by decide) (by decide)
      (Or.inl ⟨false, by decide⟩)).1,
    ((C9_setadmin_admin_not_self memBackend sampleStore
      (setadminRequest (sessionOf "bob") "cyd" true)).2 ⟨"bob"⟩ bob (by decide) (by decide)
      (Or.inr (by decide))).1⟩

@[simp] theorem World.setUser_saved {σ : Type} (w : World σ) (v : Option SessionValue) :
    (w.setUser v).saved = w.saved := rfl
@[simp] theorem World.setUser_session {σ : Type} (w : World σ) (v : Option SessionValue) :
    (w.setUser v).session = { w.session with user := v } := rfl
@[simp] theorem World.setUser_calls {σ : Type} (w : World σ) (v : Option SessionValue) :
    (w.setUser v).calls = w.calls := rfl
@[simp] theorem World.setUser_resp {σ : Type} (w : World σ) (v : Option SessionValue) :
    (w.setUser v).resp = w.resp := rfl
@[simp] theorem World.setUser_store {σ : Type} (w : World σ) (v : Option SessionValue) :
    (w.setUser v).store = w.store := rfl

/-- C10 (counterexample): the session names the user "ghost", who is not in
the store, so `LoggedIn` fails.  The handlers rmuser, rmalias, setadmin,
createuser, createalias and changepw report "unauthorized" and save the
session with its user value still present. -/
theorem C10_stale_identity_saved :
    memBackend.LoggedIn sampleStore ⟨"ghost"⟩ = .error "unauthorized" ∧
    (handleRmuser memBackend sampleStore (bodyRequest (sessionOf "ghost") "bob")).saved =
      [⟨some (.sessionUser ⟨"ghost"⟩), ["unauthorized"]⟩] ∧
    (handleRmalias memBackend sampleStore (bodyRequest (sessionOf "ghost") "docs")).saved =
      [⟨some (.sessionUser ⟨"ghost"⟩), ["unauthorized"]⟩] ∧
    (handleSetadmin memBackend sampleStore
        (setadminRequest (sessionOf "ghost") "bob" true)).saved =
      [⟨some (.sessionUser ⟨"ghost"⟩), ["unauthorized"]⟩] ∧
    (handleCreateuser memBackend sampleStore (baseRequest (sessionOf "ghost"))).saved =
      [⟨some (.sessionUser ⟨"ghost"⟩), ["unauthorized"]⟩] ∧
    (handleCreatealias sampleLib memBackend sampleStore
        (createRequest (sessionOf "ghost") "https://example.com/a" "new" "")).saved =
      [⟨some (.sessionUser ⟨"ghost"⟩), ["unauthorized"]⟩] ∧
    (handleChangepw memBackend sampleStore (changepwRequest (sessionOf "ghost") "x" "x")).saved =
      [⟨some (.sessionUser ⟨"ghost"⟩), ["unauthorized"]⟩] := by
  refine ⟨by decide, by decide, by decide, by decide, by decide, by decide, by decide⟩

/-- C10 (amended): the session's user value is set absent and the session
saved so (a) by logout, for every request, (b) by changepw once
`lm.ChangePassword` has succeeded, and (c) by the index handler (`GET /`)
when `LoggedIn` fails for the session's identity.  (d) A changepw request
whose password and repetition differ does not call `lm.ChangePassword`,
leaves the backend state as it was and keeps the session's user value. -/
theorem C10_session_invalidation {σ : Type} (b : Backend σ) (st : σ) (r : Request) :
    ((handleLogout st r).saved = [{ r.session with user := none }]) ∧
    (∀ su u, r.parseForm = none → r.FormValue "password-repeat" = r.FormValue "password" →
      r.session.user = some (.sessionUser su) → b.LoggedIn st su = .ok u →
      (b.ChangePassword st u (r.FormValue "password")).2 = none →
        (handleChangepw b st r).called (.ChangePassword u (r.FormValue "password")) ∧
        (handleChangepw b st r).saved = [{ r.session with user := none }]) ∧
    (∀ su e, r.session.user = some (.sessionUser su) → b.LoggedIn st su = .error e →
      (handleIndex b st r).saved = [{ r.session with user := none }] ∧
      (handleIndex b st r).resp = [.writeHeader 500]) ∧
    (r.FormValue "password-repeat" ≠ r.FormValue "password" →
      (∀ u p, ¬ (handleChangepw b st r).called (.ChangePassword u p)) ∧
      (handleChangepw b st r).store = st ∧
      (handleChangepw b st r).session.user = r.session.user ∧
      ∀ s ∈ (handleChangepw b st r).saved, s.user = r.session.user) := by
  refine ⟨?_, ?_, ?_, ?_⟩
  · simp [handleLogout, World.save, World.seeOther]
  · intro su u hform hsame hsu hl hcp
    unfold handleChangepw
    simp only [hform, hsame, bne_self_eq_false, Bool.false_eq_true, if_false,
      resolveUser_ok b (World.init st r) su u hsu hl, World.log_store, World.init_store]
    cases hc : b.ChangePassword st u (r.FormValue "password") with
    | mk st1 err =>
      rw [hc] at hcp
      simp only at hcp
      subst hcp
      simp [World.called, World.save, World.seeOther]
  · intro su e hsu hl
    simp [handleIndex, indexUser, hsu, hl, World.save]
  · intro hdiff
    unfold handleChangepw
    cases r.parseForm with
    | some e => simp [World.called]
    | none =>
      have hne : (r.FormValue "password-repeat" != r.FormValue "password") = true := by
        simpa using hdiff
      simp [hne, World.called]

/-- C10 (witness): bob logs out; bob changes his password; the index page is
requested with the session of the vanished user "ghost": each time the saved
session has no user value.  Bob's changepw request with two different
passwords changes neither the store nor the session's user value. -/
theorem C10_session_invalidation_witness :
    (handleLogout sampleStore (baseRequest (sessionOf "bob"))).saved = [anonymous] ∧
    (handleChangepw memBackend sampleStore
        (changepwRequest (sessionOf "bob") "n3w" "n3w")).saved = [anonymous] ∧
    (handleChangepw memBackend sampleStore
        (changepwRequest (sessionOf "bob") "n3w" "n3w")).store ≠ sampleStore ∧
    (handleIndex memBackend sampleStore (baseRequest (sessionOf "ghost"))).saved =
      [anonymous] ∧
    (handleChangepw memBackend sampleStore
        (changepwRequest (sessionOf "bob") "n3w" "new")).store = sampleStore ∧
    (handleChangepw memBackend sampleStore
        (changepwRequest (sessionOf "bob") "n3w" "new")).session.user =
      some (.sessionUser ⟨"bob"⟩) :=
  ⟨(C10_session_invalidation memBackend sampleStore (baseRequest (sessionOf "bob"))).1,
    ((C10_session_invalidation memBackend sampleStore
      (changepwRequest (sessionOf "bob") "n3w" "n3w")).2.1 ⟨"bob"⟩ bob (by decide) (by decide)
      (by decide) (by decide) (by decide)).2,
    by decide,
    ((C10_session_invalidation memBackend sampleStore
      (baseRequest (sessionOf "ghost"))).2.2.1 ⟨"ghost"⟩ "unauthorized" (by decide)
      (by decide)).1,
    ((C10_session_invalidation memBackend sampleStore
      (changepwRequest (sessionOf "bob") "n3w" "new")).2.2.2 (by decide)).2.1,
    ((C10_session_invalidation memBackend sampleStore
      (changepwRequest (sessionOf "bob") "n3w" "new")).2.2.2 (by decide)).2.2.1⟩

/-- C11 (the code at the failing input): bob, logged in, sends rmalias with
the body "nope", a name the store does not hold, so `store.GetAlias` returns
the absent result without an error.  The handler dereferences it and stops
with a nil-pointer panic: no flash message, no saved session and no response
are produced (`store.RmAlias` is not reached).  The alias handler
(`GET /nope`) checks the same result against nil and reports the failure. -/
theorem C11_rmalias_absent_alias_panics :
    memBackend.LoggedIn sampleStore ⟨"bob"⟩ = .ok bob ∧
    memBackend.GetAlias sampleStore "nope" = .ok none ∧
    (handleRmalias memBackend sampleStore absentAliasRequest).panic =
      some "nil pointer dereference" ∧
    (handleRmalias memBackend sampleStore absentAliasRequest).calls =
      [⟨.LoggedIn ⟨"bob"⟩, false⟩, ⟨.GetAlias "nope", false⟩] ∧
    (handleRmalias memBackend sampleStore absentAliasRequest).resp = [] ∧
    (handleRmalias memBackend sampleStore absentAliasRequest).saved = [] ∧
    (handleRmalias memBackend sampleStore absentAliasRequest).session.flashes = [] ∧
    (handleAlias sampleLib memBackend sampleStore
        { baseRequest (sessionOf "bob") with aliasVar := "nope" }).panic = none ∧
    (handleAlias sampleLib memBackend sampleStore
        { baseRequest (sessionOf "bob") with aliasVar := "nope" }).resp =
      [.redirect "/" 303] ∧
    (handleAlias sampleLib memBackend sampleStore
        { baseRequest (sessionOf "bob") with aliasVar := "nope" }).session.flashes =
      ["alias could not be found. Did you make a typo?"] := by
  refine ⟨by decide, by decide, by decide, by decide, by decide, by decide, by decide,
    by decide, by decide, by decide⟩

theorem filenameLoop_no_colon (s : Bytes) (n : Nat)
    (h : ∀ i, i < n → s[i]? ≠ some colon) : filenameLoop s n = s := by
  induction n with
  | zero => rfl
  | succ n ih =>
    have h1 : s[n]? ≠ some colon := h n (Nat.lt_succ_self n)
    simp only [filenameLoop, h1, if_false]
    exact ih fun i hi => h i (Nat.lt_succ_of_lt hi)

theorem getElem?_ne_of_not_mem (s : Bytes) (h : colon ∉ s) (i : Nat) :
    s[i]? ≠ some colon := by
  intro hi
  exact h (List.getElem?_mem hi)

theorem filenameLoop_last_colon (f r : Bytes) (h : colon ∉ r) (k : Nat) :
    filenameLoop (f ++ colon :: r) (f.length + 1 + k) = f := by
  induction k with
  | zero =>
    have h0 : (f ++ colon :: r)[f.length]? = some colon := by
      rw [List.getElem?_append_right (Nat.le_refl _)]
      simp
    simp [filenameLoop, h0]
  | succ k ih =>
    have hk : (f ++ colon :: r)[f.length + 1 + k]? = r[k]? := by
      rw [List.getElem?_append_right (by omega)]
      have : f.length + 1 + k - f.length = k + 1 := by omega
      rw [this]
      simp
    have hne : (f ++ colon :: r)[f.length + 1 + k]? ≠ some colon := by
      rw [hk]; exact getElem?_ne_of_not_mem r h k
    show filenameLoop (f ++ colon :: r) (f.length + 1 + k + 1) = f
    simp only [filenameLoop, hne, if_false]
    exact ih

theorem filename_append_colon (f r : Bytes) (h : colon ∉ r) :
    filename (f ++ colon :: r) = f := by
  unfold filename
  have hl : (f ++ colon :: r).length = f.length + 1 + r.length := by
    simp; omega
  rw [hl]
  exact filenameLoop_last_colon f r h r.length

theorem filename_no_colon (s : Bytes) (h : colon ∉ s) : filename s = s :=
  filenameLoop_no_colon s s.length fun i _ => getElem?_ne_of_not_mem s h i

theorem split_at_last (x : UInt8) (s : Bytes) (h : x ∈ s) :
    ∃ f r, s = f ++ x :: r ∧ x ∉ r := by
  induction s with
  | nil => cases h
  | cons a t ih =>
    by_cases ht : x ∈ t
    · obtain ⟨f, r, hs, hr⟩ := ih ht
      exact ⟨a :: f, r, by simp [hs], hr⟩
    · have hxa : x = a := by
        rcases List.mem_cons.mp h with h1 | h1
        · exact h1
        · exact absurd h1 ht
      exact ⟨[], t, by simp [hxa], ht⟩
theorem byte_toNat_or (a b : UInt8) : (a ||| b).toNat = a.toNat ||| b.toNat := by
  rfl

theorem high_byte_ne_colon (y k : UInt8) (hk : k.toNat.testBit 7 = true) :
    (y ||| k) ≠ colon := by
  intro h
  have h2 := congrArg (fun b : UInt8 => b.toNat.testBit 7) h
  simp only [byte_toNat_or, Nat.testBit_or, hk, Bool.or_true] at h2
  revert h2
  decide

theorem low_byte_eq_colon (v : UInt32) (h : v ≤ 127) (h2 : v.toUInt8 = colon) :
    v.toNat = 58 := by
  have h3 := congrArg UInt8.toNat h2
  have hv : v.toNat ≤ 127 := h
  simp [UInt32.toUInt8, Nat.toUInt8, UInt8.ofNat, UInt8.toNat, colon] at h3
  omega

theorem utf8EncodeChar_colon (c : Char) (h : colon ∈ String.utf8EncodeChar c) : c = ':' := by
  unfold String.utf8EncodeChar at h
  simp only at h
  split at h
  · rename_i h1
    simp only [List.mem_singleton] at h
    have := low_byte_eq_colon c.val h1 h.symm
    exact char_eq_of_toNat c 58 this
  · split at h
    · simp only [List.mem_cons, List.mem_singleton, List.not_mem_nil, or_false] at h
      rcases h with h | h
      · exact absurd h.symm (high_byte_ne_colon _ _ (by decide))
      · exact absurd h.symm (high_byte_ne_colon _ _ (by decide))
    · split at h
      · simp only [List.mem_cons, List.mem_singleton, List.not_mem_nil, or_false] at h
        rcases h with h | h | h
        · exact absurd h.symm (high_byte_ne_colon _ _ (by decide))
        · exact absurd h.symm (high_byte_ne_colon _ _ (by decide))
        · exact absurd h.symm (high_byte_ne_colon _ _ (by decide))
      · simp only [List.mem_cons, List.mem_singleton, List.not_mem_nil, or_false] at h
        rcases h with h | h | h | h
        · exact absurd h.symm (high_byte_ne_colon _ _ (by decide))
        · exact absurd h.symm (high_byte_ne_colon _ _ (by decide))
        · exact absurd h.symm (high_byte_ne_colon _ _ (by decide))
        · exact absurd h.symm (high_byte_ne_colon _ _ (by decide))

theorem bytesOf_no_colon (r : String) (h : ':' ∉ r.data) : colon ∉ bytesOf r := by
  intro hm
  simp only [bytesOf, List.mem_flatMap] at hm
  obtain ⟨c, hc, hcol⟩ := hm
  have := utf8EncodeChar_colon c hcol
  subst this
  exact h hc

theorem bytesOf_identifier (fn r : String) :
    bytesOf (fn ++ ":" ++ r) = bytesOf fn ++ colon :: bytesOf r := by
  have h1 : bytesOf ":" = [colon] := by decide
  have h2 : ∀ a b : String, bytesOf (a ++ b) = bytesOf a ++ bytesOf b := by
    intro a b
    simp [bytesOf, String.data_append, List.flatMap_append]
  rw [h2, h2, h1]
  simp

/-- C12: the template function `filename` undoes the construction of the file
identifier.  On Go strings (byte sequences): `filename (f ++ ":" ++ r) = f`
for every `f` (empty, or with `':'` inside) and every `r` without `':'`;
`filename s = s` for every `s` without `':'`; and a string with a `':'` is
`filename s`, then `':'`, then a rest without `':'`, so `filename s` is the
part before the last `':'`.  On text: for every file name `fn` and every
suffix `r` without the character `':'`, `filename` maps the bytes of
`fn ++ ":" ++ r` to the bytes of `fn`, and so it maps the identifier that
createalias builds for an upload back to the uploaded file name when the
random suffix has no `':'`. -/
theorem C12_filename_inverts_identifier {σ : Type} (f r s : Bytes) (fn suffix : String)
    (b : Backend σ) (rq : Request) (w : World σ) (header : Mime) (data : Bytes)
    (readErr : Option Error) :
    (colon ∉ r → filename (f ++ colon :: r) = f) ∧
    (colon ∉ s → filename s = s) ∧
    (colon ∈ s → ∃ rest, colon ∉ rest ∧ s = filename s ++ colon :: rest) ∧
    (':' ∉ suffix.data → filename (bytesOf (fn ++ ":" ++ suffix)) = bytesOf fn) ∧
    (':' ∉ (rq.RandSeq 20 none).data →
      filename (bytesOf (storeUpload b rq w fn header data readErr).2) = bytesOf fn) := by
  refine ⟨filename_append_colon f r, filename_no_colon s, ?_, ?_, ?_⟩
  · intro hs
    obtain ⟨p, rest, hsplit, hrest⟩ := split_at_last colon s hs
    refine ⟨rest, hrest, ?_⟩
    rw [hsplit, filename_append_colon p rest hrest]
  · intro hsuf
    rw [bytesOf_identifier]
    exact filename_append_colon _ _ (bytesOf_no_colon suffix hsuf)
  · intro hrand
    have hid : (storeUpload b rq w fn header data readErr).2 =
        fn ++ ":" ++ rq.RandSeq 20 none := by
      unfold storeUpload
      simp only
      split <;> rfl
    rw [hid, bytesOf_identifier]
    exact filename_append_colon _ _ (bytesOf_no_colon _ hrand)

/-- C12 (witness): the upload "a:b.txt" stored under "a:b.txt:r4nd" is shown
as "a:b.txt"; a name without a colon is shown as it is; an empty file name
comes back empty. -/
theorem C12_filename_inverts_identifier_witness :
    colon ∉ bytesOf "r4nd" ∧
    filename (bytesOf "a:b.txt" ++ colon :: bytesOf "r4nd") = bytesOf "a:b.txt" ∧
    filename (bytesOf "plain.txt") = bytesOf "plain.txt" ∧
    filename (bytesOf ("" ++ ":" ++ "r4nd")) = bytesOf "" ∧
    filename (bytesOf (storeUpload memBackend (baseRequest anonymous)
      (World.init sampleStore (baseRequest anonymous)) "a:b.txt" [] [] none).2) =
        bytesOf "a:b.txt" :=
  ⟨by decide,
    (C12_filename_inverts_identifier (bytesOf "a:b.txt") (bytesOf "r4nd") (bytesOf "plain.txt")
      "" "r4nd" memBackend (baseRequest anonymous)
      (World.init sampleStore (baseRequest anonymous)) [] [] none).1 (by decide),
    (C12_filename_inverts_identifier (bytesOf "a:b.txt") (bytesOf "r4nd") (bytesOf "plain.txt")
      "" "r4nd" memBackend (baseRequest anonymous)
      (World.init sampleStore (baseRequest anonymous)) [] [] none).2.1 (by decide),
    (C12_filename_inverts_identifier (bytesOf "a:b.txt") (bytesOf "r4nd") (bytesOf "plain.txt")
      "" "r4nd" memBackend (baseRequest anonymous)
      (World.init sampleStore (baseRequest anonymous)) [] [] none).2.2.2.1 (by decide),
    (C12_filename_inverts_identifier (bytesOf "a:b.txt") (bytesOf "r4nd") (bytesOf "plain.txt")
      "a:b.txt" "r4nd" memBackend (baseRequest anonymous)
      (World.init sampleStore (baseRequest anonymous)) [] [] none).2.2.2.2 (by decide)⟩

end Short
